import Mathlib

/-!
Verification of the batching/flushing state machine of `tglogging`
(`src/tglogging/tglogger.py`, class `TelegramLogHandler`).

Python strings are modelled as `List Char`; Python string operations used by
the source (`s[:n]`, `s[n:]`, `len`, `+`, `s.rsplit("\n", 1)[0]`, `in`)
become `List.take`, `List.drop`, `List.length`, `++`, `pyRsplitLeft`,
`List.isInfixOf`.  Telegram API responses are decoded JSON dicts; the fields
the source reads are modelled by the structures below, with `Option` for
`dict.get` absence.  Exceptions that the Python code can raise (attribute
access on `None`, unpacking `None`) are modelled with `Except`.
-/

namespace TG

abbrev Str := List Char

/-- `s.toList` helper for readable string literals. -/
def strL (s : String) : Str := s.data

/-- Index of the last `'\n'` in a string, if any. -/
def lastNL? : Str → Option Nat
  | [] => none
  | c :: cs =>
    match lastNL? cs with
    | some p => some (p + 1)
    | none => if c = '\n' then some 0 else none

/-- Python `s.rsplit("\n", 1)[0]`: everything strictly before the last
newline, or the whole string when it has no newline. -/
def pyRsplitLeft (s : Str) : Str :=
  match lastNL? s with
  | some p => s.take p
  | none => s

/-- The idiom `msg = t.rsplit("\n", 1)[0]; if not msg: msg = t` that the
source uses three times (lines 89-91, 98-100, 112-114). -/
def pyChunk (t : Str) : Str :=
  let m := pyRsplitLeft t
  if m = [] then t else m

/-- The `parameters` sub-dict of an API response (`handle_error`, line 191).
`hasOtherKeys` records whether the dict holds keys other than `retry_after`,
which matters only for Python truthiness of the dict. -/
structure TgParams where
  retry_after : Option Int
  hasOtherKeys : Bool
deriving DecidableEq

/-- The `result` sub-dict of an API response.  `message_id == 0` plays the
role of an absent id (both are falsy in the only test `if not self.message_id`). -/
structure TgResult where
  message_id : Nat
  username : Option Str
deriving DecidableEq

/-- A decoded API response, restricted to the keys the source reads. -/
structure TgResponse where
  ok : Bool
  error_code : Option Int
  description : Option Str
  result : Option TgResult
  parameters : Option TgParams
deriving DecidableEq

/-- Exceptions the Python code can raise during a flush. -/
inductive PyErr where
  | attributeError
  | typeError
deriving DecidableEq

instance {ε α : Type} [DecidableEq ε] [DecidableEq α] :
    DecidableEq (Except ε α) := fun a b =>
  match a, b with
  | .error x, .error y =>
    if h : x = y then isTrue (by rw [h])
    else isFalse (fun hh => by injection hh; contradiction)
  | .error _, .ok _ => isFalse (fun hh => by injection hh)
  | .ok _, .error _ => isFalse (fun hh => by injection hh)
  | .ok x, .ok y =>
    if h : x = y then isTrue (by rw [h])
    else isFalse (fun hh => by injection hh; contradiction)

/-- Constructor configuration (`__init__`, lines 30-57): `update_interval`,
`minimum_lines`, `pending_logs`, and the normalised `ignore_match`
(`none` models Python `None`). -/
structure Cfg where
  wait_time : Int
  minimum : Nat
  pending : Nat
  ignore_match : Option (List Str)
deriving DecidableEq

/-- `if len(ignore_match) > 0` normalisation for a single-string argument
(lines 48-55): a nonempty string becomes a one-element list, the empty
string becomes `None`. -/
def mkIgnoreOfStr (s : Str) : Option (List Str) :=
  if s.length > 0 then some [s] else none

/-- The handler's mutable state (lines 58-63). -/
structure HState where
  messages : Str
  current_msg : Str
  floodwait : Int
  message_id : Nat
  lines : Nat
  last_update : Int
deriving DecidableEq

/-- State at construction: empty buffer, empty committed text, no floodwait,
no message id, zero lines, `last_update = 0`. -/
def initState : HState :=
  { messages := [], current_msg := [], floodwait := 0, message_id := 0
    lines := 0, last_update := 0 }

/-- Python `m in s` on strings: `m` occurs contiguously in `s`. -/
def pyInStr (m : Str) : Str → Bool
  | [] => m.isEmpty
  | c :: cs => m.isPrefixOf (c :: cs) || pyInStr m cs

/-- `msg` is dropped iff some configured ignore-substring occurs in it
(lines 72-75); with `ignore_match = None` nothing is dropped. -/
def ignoredLine (cfg : Cfg) (msg : Str) : Bool :=
  match cfg.ignore_match with
  | none => false
  | some ms => ms.any (fun m => pyInStr m msg)

/-- `emit` (lines 70-84).  Returns the new state and whether a flush task was
scheduled (`loop.create_task(handle_logs())`).  `now` stands for
`time.time()`. -/
def emit (cfg : Cfg) (s : HState) (msg : Str) (now : Int) : HState × Bool :=
  if ignoredLine cfg msg then (s, false)
  else
    let s1 : HState := { s with lines := s.lines + 1
                                messages := s.messages ++ msg ++ ['\n'] }
    if now - s1.last_update ≥ max cfg.wait_time s1.floodwait ∧
        s1.lines ≥ cfg.minimum then
      ({ s1 with floodwait := 0, lines := 0, last_update := now }, true)
    else
      (s1, false)

/-- `handle_error` (lines 190-204).  The only field it ever assigns is
`floodwait`, and only when `parameters` is present, truthy as a dict, and
carries a truthy (nonzero) `retry_after`. -/
def handle_error (resp : TgResponse) (s : HState) : HState :=
  match resp.parameters with
  | none => s
  | some p =>
    if p.retry_after.isSome || p.hasOtherKeys then
      match p.retry_after with
      | some r => if r ≠ 0 then { s with floodwait := r } else s
      | none => s
    else s

/-- `send_message` (lines 148-157): on `ok` store the fresh `message_id`;
a missing `result` on an `ok` response raises (`result.get` on `None`);
otherwise route the response to `handle_error`. -/
def send_message (r : TgResponse) (s : HState) : Except PyErr HState :=
  if r.ok then
    match r.result with
    | some res => .ok { s with message_id := res.message_id }
    | none => .error .attributeError
  else .ok (handle_error r s)

/-- `initialise` (lines 136-146): same response handling as `send_message`. -/
def initialise (r : TgResponse) (s : HState) : Except PyErr HState :=
  if r.ok then
    match r.result with
    | some res => .ok { s with message_id := res.message_id }
    | none => .error .attributeError
  else .ok (handle_error r s)

/-- `edit_message` (lines 159-166): only a failed response has an effect,
via `handle_error`. -/
def edit_message (r : TgResponse) (s : HState) : HState :=
  if r.ok then s else handle_error r s

/-- `send_as_file` (lines 168-188): only a failed response has an effect,
via `handle_error`. -/
def send_as_file (r : TgResponse) (s : HState) : HState :=
  if r.ok then s else handle_error r s

/-- `verify_bot` (lines 129-134).  A 401/Unauthorized error returns
`(None, False)`; any other response without a `result` dict raises
`AttributeError` (`res.get("result").get("username")` on `None`); a `result`
without a truthy `username` falls off the function, so the caller's tuple
unpacking raises `TypeError`. -/
def verify_bot (r : TgResponse) : Except PyErr (Option Str × Bool) :=
  if r.error_code = some 401 ∧ r.description = some (strL "Unauthorized") then
    .ok (none, false)
  else
    match r.result with
    | none => .error .attributeError
    | some res =>
      match res.username with
      | some u => if u ≠ [] then .ok (some u, true) else .error .typeError
      | none => .error .typeError

/-- The responses the remote endpoint hands back to one flush invocation,
one per potential request. -/
structure Env where
  verifyResp : TgResponse
  initResp : TgResponse
  sendResp : TgResponse
  editResp : TgResponse
  fileResp : TgResponse
deriving DecidableEq

/-- Observable remote requests made by one flush, with the log content they
carry (the title wrapper is not log content). -/
inductive Ev where
  | initMsg
  | sendText (payload : Str)
  | editText (payload : Str)
  | sendFile (payload : Str)
deriving DecidableEq

/-- Lines 104-108 of `handle_logs`: when no message id exists yet, call
`verify_bot` (whose result only selects a locally printed warning) and then
`initialise`. -/
def bootstrap (env : Env) (s1 : HState) : Except PyErr (HState × List Ev) :=
  if s1.message_id = 0 then
    match verify_bot env.verifyResp with
    | .error e => .error e
    | .ok _ =>
      match initialise env.initResp s1 with
      | .error e => .error e
      | .ok s2 => .ok (s2, [.initMsg])
  else .ok (s1, [])

/-- Lines 109-122 of `handle_logs`: compose the committed text with the new
chunk, then either edit in place or split, edit, and roll over to a newly
sent message. -/
def textCont (env : Env) (s2 : HState) (msg : Str) (evs0 : List Ev) :
    Except PyErr (HState × Str × List Ev) :=
  let computed := s2.current_msg ++ msg
  if computed.length > 4050 then
    let to_edit := pyChunk (computed.take 4050)
    let to_new := computed.drop to_edit.length
    let (s3, evs1) :=
      if to_edit ≠ s2.current_msg then
        (edit_message env.editResp s2, [Ev.editText to_edit])
      else (s2, [])
    let s4 : HState := { s3 with current_msg := to_new }
    match send_message env.sendResp s4 with
    | .error e => .error e
    | .ok s5 => .ok (s5, msg, evs0 ++ evs1 ++ [.sendText to_new])
  else
    let s3 := edit_message env.editResp s2
    .ok ({ s3 with current_msg := computed }, msg, evs0 ++ [.editText computed])

/-- `handle_logs` (lines 86-122).  Returns the new state, the span removed
from the front of `messages`, and the requests issued; `.error` models an
uncaught Python exception escaping the flush. -/
def handle_logs (cfg : Cfg) (env : Env) (s : HState) :
    Except PyErr (HState × Str × List Ev) :=
  if s.messages.length > cfg.pending then
    let msg := pyChunk s.messages
    let s1 : HState := { s with current_msg := [], message_id := 0
                                messages := s.messages.drop msg.length }
    .ok (send_as_file env.fileResp s1, msg, [.sendFile msg])
  else
    let msg := pyChunk (s.messages.take 4050)
    let s1 : HState := { s with messages := s.messages.drop msg.length }
    match bootstrap env s1 with
    | .error e => .error e
    | .ok (s2, evs0) => textCont env s2 msg evs0

/-- One producer-visible event: a log record arriving at `emit` at wall-clock
time `now`, or a scheduled flush task running against responses `env`. -/
inductive Step where
  | acc (line : Str) (now : Int)
  | flush (env : Env)

/-- A system configuration during a run: handler state, number of scheduled
but not yet executed flush tasks, and three ghost accumulators — every span
removed from the buffer, every accepted line (with its appended newline),
and every text payload handed to send/edit. -/
structure Sys where
  st : HState
  tasks : Nat
  removedAll : Str
  acceptedAll : Str
  sentTexts : List Str
deriving DecidableEq

def initSys : Sys :=
  { st := initState, tasks := 0, removedAll := [], acceptedAll := []
    sentTexts := [] }

/-- The send/edit text payloads of a flush's request list. -/
def textPayloads (evs : List Ev) : List Str :=
  evs.filterMap fun e =>
    match e with
    | Ev.sendText p => some p
    | Ev.editText p => some p
    | _ => none

/-- Small-step semantics of a run.  A flush step is enabled only when a task
is pending, and `none` also models a flush that raised. -/
def step (cfg : Cfg) (sys : Sys) : Step → Option Sys
  | .acc line now =>
    let (s', sched) := emit cfg sys.st line now
    some { st := s'
           tasks := sys.tasks + (if sched then 1 else 0)
           removedAll := sys.removedAll
           acceptedAll := sys.acceptedAll ++
             (if ignoredLine cfg line then [] else line ++ ['\n'])
           sentTexts := sys.sentTexts }
  | .flush env =>
    if sys.tasks = 0 then none
    else
      match handle_logs cfg env sys.st with
      | .error _ => none
      | .ok (s', removed, evs) =>
        some { st := s'
               tasks := sys.tasks - 1
               removedAll := sys.removedAll ++ removed
               acceptedAll := sys.acceptedAll
               sentTexts := sys.sentTexts ++ textPayloads evs }

/-- Run a whole trace from the freshly constructed handler. -/
def runTrace (cfg : Cfg) (tr : List Step) : Option Sys :=
  tr.foldlM (step cfg) initSys

/-- Default configuration values of `__init__`. -/
def defaultCfg : Cfg :=
  { wait_time := 5, minimum := 1, pending := 200000, ignore_match := none }

/-- A response with every request succeeding and a fixed fresh id. -/
def okResp : TgResponse :=
  { ok := true, error_code := none, description := none
    result := some { message_id := 1, username := some (strL "bot") }
    parameters := none }

/-- An environment in which every request succeeds. -/
def benignEnv : Env :=
  { verifyResp := okResp, initResp := okResp, sendResp := okResp
    editResp := okResp, fileResp := okResp }

/-- Configuration with the defaults except `pending_logs = 2`. -/
def cfgPend2 : Cfg := { wait_time := 5, minimum := 1, pending := 2, ignore_match := none }

/-- Configuration with the defaults except `pending_logs = 5`. -/
def cfgPend5 : Cfg := { wait_time := 5, minimum := 1, pending := 5, ignore_match := none }

/-- Configuration with the defaults except `minimum_lines = 3`. -/
def cfgMin3 : Cfg := { wait_time := 5, minimum := 3, pending := 200000, ignore_match := none }

/-- Default configuration with ignore-match `DEBUG`. -/
def cfgDBG : Cfg := { wait_time := 5, minimum := 1, pending := 200000, ignore_match := mkIgnoreOfStr (strL "DEBUG") }

/-- A verify-identity response that fails with a non-401 error: `getMe`
answered `ok = false` with error code 500 and no `result` dict. -/
def resp500 : TgResponse :=
  { ok := false, error_code := some 500
    description := some (strL "Internal Server Error")
    result := none, parameters := none }

/-- An environment whose verify call fails with the 500 error and whose
other calls succeed. -/
def env500 : Env :=
  { verifyResp := resp500, initResp := okResp, sendResp := okResp
    editResp := okResp, fileResp := okResp }

/-- An error response carrying flood-control parameters. -/
def respFlood : TgResponse :=
  { ok := false, error_code := some 429, description := none
    result := none, parameters := some { retry_after := some 3, hasOtherKeys := false } }

/-- An environment in which every mutating request fails with the
flood-control error. -/
def envFlood : Env :=
  { verifyResp := okResp, initResp := respFlood, sendResp := respFlood
    editResp := respFlood, fileResp := respFlood }

/-- Modelled from the spec's words for the file path (claim C6): take
"everything up to and including the last newline", the whole buffer if it
contains no newline.  Used only to compare the spec's description with the
code's behaviour. -/
def specFileSpan (msgs : Str) : Str :=
  match lastNL? msgs with
  | some p => msgs.take (p + 1)
  | none => msgs

/-- Amended description of the file-path span: everything strictly before
the last newline; the whole buffer when that would be empty (no newline, or
the only newline at position 0). -/
def fileSpanAmended (msgs : Str) : Str :=
  match lastNL? msgs with
  | some p => if p = 0 then msgs else msgs.take p
  | none => msgs

/-- Modelled from the spec's words for the text-path chunk (claim C7): cut
the first-4050-character slice at its last newline; the full slice only when
the slice contains no newline. -/
def specTextChunk (msgs : Str) : Str :=
  let slice := msgs.take 4050
  match lastNL? slice with
  | some p => slice.take p
  | none => slice

/-- Amended description of the text-path chunk: cut the slice strictly
before its last newline; the full slice when that cut would be empty (no
newline, or the only newline at position 0). -/
def textChunkAmended (msgs : Str) : Str :=
  let slice := msgs.take 4050
  match lastNL? slice with
  | some p => if p = 0 then slice else slice.take p
  | none => slice

/-- Modelled from the spec's words for the overflow split (claim C4): the
left part of the candidate at the last newline at or before position 4050,
hard cut at 4050 only if there is no such newline. -/
def specSplitLeft (candidate : Str) : Str :=
  match lastNL? (candidate.take 4050) with
  | some p => candidate.take p
  | none => candidate.take 4050

/-- Buffer for the C4 analysis: a 4051-character line followed by its
newline. -/
def msgsC4 : Str := List.replicate 4051 'x' ++ ['\n']

/-- State for the C4 analysis: committed text is a single newline, a message
id exists, and the buffer holds the long line. -/
def stC4 : HState :=
  { messages := msgsC4, current_msg := ['\n'], floodwait := 0
    message_id := 1, lines := 0, last_update := 0 }

/-- The left part the code actually edits in the C4 analysis. -/
def teC4 : Str := '\n' :: List.replicate 4049 'x'

/-- A 4046-character line used in the C3 run. -/
def g1C3 : Str := List.replicate 4046 'x'

/-- An 8000-character line used in the C3 run. -/
def g2C3 : Str := List.replicate 8000 'x'

/-- The committed text after the third flush of the C3 run: exactly 4050
characters with newlines at positions 1 and 3. -/
def compC3 : Str := strL "a\nb" ++ ('\n' :: g1C3)

/-- The rolled-over remainder the fourth flush of the C3 run sends as a
brand-new message: 8097 characters. -/
def tnC3 : Str := '\n' :: (g1C3 ++ ('\n' :: List.replicate 4049 'x'))

/-- The C3 run: two short lines, a 4046-character line and an
8000-character line, each followed by the flush it schedules, under the
default configuration. -/
def trC3 : List Step :=
  [Step.acc (strL "a") 10, Step.flush benignEnv,
   Step.acc (strL "b") 20, Step.flush benignEnv,
   Step.acc g1C3 30, Step.flush benignEnv,
   Step.acc g2C3 40, Step.flush benignEnv]

/-- System states along the C3 run. -/
def sysC3a : Sys := { st := { messages := strL "a\n", current_msg := [], floodwait := 0, message_id := 0, lines := 0, last_update := 10 }, tasks := 1, removedAll := [], acceptedAll := strL "a\n", sentTexts := [] }

def sysC3b : Sys := { st := { messages := strL "\n", current_msg := strL "a", floodwait := 0, message_id := 1, lines := 0, last_update := 10 }, tasks := 0, removedAll := strL "a", acceptedAll := strL "a\n", sentTexts := [strL "a"] }

def sysC3c : Sys := { st := { messages := strL "\nb\n", current_msg := strL "a", floodwait := 0, message_id := 1, lines := 0, last_update := 20 }, tasks := 1, removedAll := strL "a", acceptedAll := strL "a\nb\n", sentTexts := [strL "a"] }

def sysC3d : Sys := { st := { messages := strL "\n", current_msg := strL "a\nb", floodwait := 0, message_id := 1, lines := 0, last_update := 20 }, tasks := 0, removedAll := strL "a\nb", acceptedAll := strL "a\nb\n", sentTexts := [strL "a", strL "a\nb"] }

def sysC3e : Sys := { st := { messages := '\n' :: (g1C3 ++ ['\n']), current_msg := strL "a\nb", floodwait := 0, message_id := 1, lines := 0, last_update := 30 }, tasks := 1, removedAll := strL "a\nb", acceptedAll := strL "a\nb\n" ++ (g1C3 ++ ['\n']), sentTexts := [strL "a", strL "a\nb"] }

def sysC3f : Sys := { st := { messages := strL "\n", current_msg := compC3, floodwait := 0, message_id := 1, lines := 0, last_update := 30 }, tasks := 0, removedAll := strL "a\nb" ++ ('\n' :: g1C3), acceptedAll := strL "a\nb\n" ++ (g1C3 ++ ['\n']), sentTexts := [strL "a", strL "a\nb", compC3] }

def sysC3g : Sys := { st := { messages := '\n' :: (g2C3 ++ ['\n']), current_msg := compC3, floodwait := 0, message_id := 1, lines := 0, last_update := 40 }, tasks := 1, removedAll := strL "a\nb" ++ ('\n' :: g1C3), acceptedAll := (strL "a\nb\n" ++ (g1C3 ++ ['\n'])) ++ (g2C3 ++ ['\n']), sentTexts := [strL "a", strL "a\nb", compC3] }

def sysC3h : Sys := { st := { messages := List.replicate 3951 'x' ++ ['\n'], current_msg := tnC3, floodwait := 0, message_id := 1, lines := 0, last_update := 40 }, tasks := 0, removedAll := (strL "a\nb" ++ ('\n' :: g1C3)) ++ ('\n' :: List.replicate 4049 'x'), acceptedAll := (strL "a\nb\n" ++ (g1C3 ++ ['\n'])) ++ (g2C3 ++ ['\n']), sentTexts := [strL "a", strL "a\nb", compC3, strL "a\nb", tnC3] }

/-! ### Basic lemmas about `lastNL?` and `pyChunk` -/

theorem lastNL?_append (s t : Str) :
    lastNL? (s ++ t) =
      (match lastNL? t with
       | some p => some (s.length + p)
       | none => lastNL? s) := by
  induction s with
  | nil => cases h : lastNL? t <;> simp [lastNL?, h]
  | cons c s ih =>
    show lastNL? (c :: (s ++ t)) = _
    cases h : lastNL? t with
    | none =>
      simp only [h] at ih ⊢
      show (match lastNL? (s ++ t) with
            | some p => some (p + 1)
            | none => if c = '\n' then some 0 else none) = _
      rw [ih]
      rfl
    | some p =>
      simp only [h] at ih ⊢
      show (match lastNL? (s ++ t) with
            | some p => some (p + 1)
            | none => if c = '\n' then some 0 else none) = _
      rw [ih]
      simp only [List.length_cons]
      congr 1
      omega

theorem lastNL?_cons (c : Char) (cs : Str) :
    lastNL? (c :: cs) =
      (match lastNL? cs with
       | some p => some (p + 1)
       | none => if c = '\n' then some 0 else none) := rfl

theorem lastNL?_replicate (n : Nat) {c : Char} (hc : ¬ c = '\n') :
    lastNL? (List.replicate n c) = none := by
  induction n with
  | zero => rfl
  | succ n ih =>
    show lastNL? (c :: List.replicate n c) = none
    show (match lastNL? (List.replicate n c) with
          | some p => some (p + 1)
          | none => if c = '\n' then some 0 else none) = none
    rw [ih]
    simp [hc]

theorem lastNL?_lt_length {s : Str} {p : Nat} (h : lastNL? s = some p) :
    p < s.length := by
  induction s generalizing p with
  | nil => simp [lastNL?] at h
  | cons c cs ih =>
    rw [show lastNL? (c :: cs) =
          (match lastNL? cs with
           | some q => some (q + 1)
           | none => if c = '\n' then some 0 else none) from rfl] at h
    cases hq : lastNL? cs with
    | some q =>
      rw [hq] at h
      cases h
      have := ih hq
      simp only [List.length_cons]
      omega
    | none =>
      rw [hq] at h
      by_cases hc : c = '\n'
      · rw [if_pos hc] at h
        cases h
        simp
      · rw [if_neg hc] at h
        cases h

theorem pyChunk_of_none {t : Str} (h : lastNL? t = none) : pyChunk t = t := by
  unfold pyChunk pyRsplitLeft
  rw [h]
  by_cases ht : t = [] <;> simp [ht]

theorem pyChunk_of_zero {t : Str} (h : lastNL? t = some 0) : pyChunk t = t := by
  unfold pyChunk pyRsplitLeft
  rw [h]
  simp

theorem pyChunk_of_pos {t : Str} {p : Nat} (h : lastNL? t = some p) (hp : 0 < p) :
    pyChunk t = t.take p := by
  unfold pyChunk pyRsplitLeft
  rw [h]
  have hlt := lastNL?_lt_length h
  have hne : ¬ t.take p = [] := by
    intro he
    have hlen : (t.take p).length = 0 := by rw [he]; rfl
    rw [List.length_take] at hlen
    omega
  simp [hne]

theorem pyChunk_length_le (t : Str) : (pyChunk t).length ≤ t.length := by
  unfold pyChunk pyRsplitLeft
  cases h : lastNL? t with
  | none => simp
  | some p =>
    by_cases he : t.take p = [] <;> simp [he]

/-- The chunk the source carves is always an exact front span. -/
theorem pyChunk_take (t : Str) : pyChunk t = t.take (pyChunk t).length := by
  unfold pyChunk pyRsplitLeft
  cases h : lastNL? t with
  | none => simp
  | some p =>
    have hlt := lastNL?_lt_length h
    by_cases he : t.take p = []
    · simp [he]
    · rw [if_neg he, List.length_take, Nat.min_eq_left (Nat.le_of_lt hlt)]

/-! ### Frame lemmas: what each remote-call helper can touch -/

theorem handle_error_frame (r : TgResponse) (s : HState) :
    ∃ fw, handle_error r s = { s with floodwait := fw } := by
  unfold handle_error
  cases hp : r.parameters with
  | none => exact ⟨s.floodwait, rfl⟩
  | some p =>
    dsimp only
    by_cases h : (p.retry_after.isSome || p.hasOtherKeys) = true
    · rw [if_pos h]
      cases hr : p.retry_after with
      | none => exact ⟨s.floodwait, rfl⟩
      | some r' =>
        dsimp only
        by_cases hz : r' = 0
        · refine ⟨s.floodwait, ?_⟩
          rw [if_neg (by simp [hz])]
        · refine ⟨r', ?_⟩
          rw [if_pos hz]
    · rw [if_neg h]
      exact ⟨s.floodwait, rfl⟩

theorem edit_message_frame (r : TgResponse) (s : HState) :
    ∃ fw, edit_message r s = { s with floodwait := fw } := by
  unfold edit_message
  by_cases h : r.ok = true
  · rw [if_pos h]
    exact ⟨s.floodwait, rfl⟩
  · rw [if_neg h]
    exact handle_error_frame r s

theorem send_as_file_frame (r : TgResponse) (s : HState) :
    ∃ fw, send_as_file r s = { s with floodwait := fw } := by
  unfold send_as_file
  by_cases h : r.ok = true
  · rw [if_pos h]
    exact ⟨s.floodwait, rfl⟩
  · rw [if_neg h]
    exact handle_error_frame r s

theorem send_message_frame {r : TgResponse} {s s' : HState}
    (h : send_message r s = .ok s') :
    ∃ fw mid, s' = { s with floodwait := fw, message_id := mid } := by
  unfold send_message at h
  by_cases hok : r.ok = true
  · rw [if_pos hok] at h
    cases hr : r.result with
    | none => rw [hr] at h; cases h
    | some res =>
      rw [hr] at h
      injection h with h'
      exact ⟨s.floodwait, res.message_id, h'.symm⟩
  · rw [if_neg hok] at h
    injection h with h'
    obtain ⟨fw, hfw⟩ := handle_error_frame r s
    exact ⟨fw, s.message_id, by rw [← h', hfw]⟩

theorem bootstrap_skip {env : Env} {s1 : HState} (h : s1.message_id ≠ 0) :
    bootstrap env s1 = .ok (s1, []) := by
  unfold bootstrap
  rw [if_neg h]

theorem initialise_frame {r : TgResponse} {s s' : HState}
    (h : initialise r s = .ok s') :
    ∃ fw mid, s' = { s with floodwait := fw, message_id := mid } := by
  unfold initialise at h
  by_cases hok : r.ok = true
  · rw [if_pos hok] at h
    cases hr : r.result with
    | none => rw [hr] at h; cases h
    | some res =>
      rw [hr] at h
      injection h with h'
      exact ⟨s.floodwait, res.message_id, h'.symm⟩
  · rw [if_neg hok] at h
    injection h with h'
    obtain ⟨fw, hfw⟩ := handle_error_frame r s
    exact ⟨fw, s.message_id, by rw [← h', hfw]⟩

theorem bootstrap_frame {env : Env} {s1 s2 : HState} {evs0 : List Ev}
    (h : bootstrap env s1 = .ok (s2, evs0)) :
    ∃ fw mid, s2 = { s1 with floodwait := fw, message_id := mid } := by
  unfold bootstrap at h
  by_cases hmid : s1.message_id = 0
  · rw [if_pos hmid] at h
    cases hv : verify_bot env.verifyResp with
    | error e => rw [hv] at h; cases h
    | ok v =>
      rw [hv] at h
      cases hi : initialise env.initResp s1 with
      | error e => rw [hi] at h; cases h
      | ok s2' =>
        rw [hi] at h
        injection h with h'
        injection h' with h1 h2
        obtain ⟨fw, mid, hfm⟩ := initialise_frame hi
        exact ⟨fw, mid, by rw [← h1, hfm]⟩
  · rw [if_neg hmid] at h
    injection h with h'
    injection h' with h1 h2
    exact ⟨s1.floodwait, s1.message_id, by rw [← h1]⟩

/-- Evaluation of the file path (lines 87-96). -/
theorem handle_logs_file_eq (cfg : Cfg) (env : Env) (s : HState)
    (hlen : s.messages.length > cfg.pending) :
    handle_logs cfg env s = .ok
      (send_as_file env.fileResp
        { s with current_msg := [], message_id := 0
                 messages := s.messages.drop (pyChunk s.messages).length },
       pyChunk s.messages, [.sendFile (pyChunk s.messages)]) := by
  unfold handle_logs
  rw [if_pos hlen]

/-- Evaluation of the text path (lines 97-122) as bootstrap then
continuation. -/
theorem handle_logs_text_eq (cfg : Cfg) (env : Env) (s : HState)
    (hlen : ¬ s.messages.length > cfg.pending) :
    handle_logs cfg env s =
      (match bootstrap env
          { s with messages :=
              s.messages.drop (pyChunk (s.messages.take 4050)).length } with
       | .error e => .error e
       | .ok (s2, evs0) =>
         textCont env s2 (pyChunk (s.messages.take 4050)) evs0) := by
  unfold handle_logs
  rw [if_neg hlen]

/-- Evaluation of the continuation when the candidate fits (lines 120-122). -/
theorem textCont_fit {env : Env} {s2 : HState} {msg comp : Str} {evs0 : List Ev}
    (hc : s2.current_msg ++ msg = comp)
    (h : ¬ comp.length > 4050) :
    textCont env s2 msg evs0 = .ok
      ({ edit_message env.editResp s2 with current_msg := comp },
       msg, evs0 ++ [.editText comp]) := by
  subst hc
  unfold textCont
  dsimp only
  rw [if_neg h]

/-- Evaluation of the continuation on overflow with a differing left part
(lines 110-119). -/
theorem textCont_roll {env : Env} {s2 : HState} {msg te tn : Str} {evs0 : List Ev}
    (hte : pyChunk ((s2.current_msg ++ msg).take 4050) = te)
    (htn : (s2.current_msg ++ msg).drop te.length = tn)
    (h : (s2.current_msg ++ msg).length > 4050)
    (hne : te ≠ s2.current_msg) :
    textCont env s2 msg evs0 =
      (match send_message env.sendResp
          { edit_message env.editResp s2 with current_msg := tn } with
       | .error e => .error e
       | .ok s5 => .ok (s5, msg, evs0 ++ [Ev.editText te] ++ [.sendText tn])) := by
  unfold textCont
  dsimp only
  rw [hte, htn, if_pos h, if_pos hne]

/-- Evaluation of the continuation on overflow when the left part equals the
already committed text, so the edit is skipped (line 116). -/
theorem textCont_roll_skip {env : Env} {s2 : HState} {msg te tn : Str}
    {evs0 : List Ev}
    (hte : pyChunk ((s2.current_msg ++ msg).take 4050) = te)
    (htn : (s2.current_msg ++ msg).drop te.length = tn)
    (h : (s2.current_msg ++ msg).length > 4050)
    (heq : te = s2.current_msg) :
    textCont env s2 msg evs0 =
      (match send_message env.sendResp { s2 with current_msg := tn } with
       | .error e => .error e
       | .ok s5 => .ok (s5, msg, evs0 ++ [] ++ [.sendText tn])) := by
  unfold textCont
  dsimp only
  rw [hte, htn, if_pos h, if_neg (by simp [heq])]

/-- Whatever else a successful continuation does, it returns the chunk it
was given as the removed span and leaves the buffer untouched. -/
theorem textCont_out {env : Env} {s2 : HState} {msg : Str} {evs0 : List Ev}
    {s' : HState} {removed : Str} {evs : List Ev}
    (h : textCont env s2 msg evs0 = .ok (s', removed, evs)) :
    removed = msg ∧ s'.messages = s2.messages := by
  unfold textCont at h
  dsimp only at h
  split at h
  · by_cases hne : pyChunk ((s2.current_msg ++ msg).take 4050) ≠ s2.current_msg
    · rw [if_pos hne] at h
      dsimp only at h
      split at h
      · cases h
      · rename_i s5 hsm
        injection h with h'
        injection h' with h1 h23
        injection h23 with h2 h3
        obtain ⟨fw, mid, hfm⟩ := send_message_frame hsm
        obtain ⟨fw2, hfw2⟩ := edit_message_frame env.editResp s2
        refine ⟨h2.symm, ?_⟩
        rw [← h1, hfm]
        show (edit_message env.editResp s2).messages = s2.messages
        rw [hfw2]
    · rw [if_neg hne] at h
      dsimp only at h
      split at h
      · cases h
      · rename_i s5 hsm
        injection h with h'
        injection h' with h1 h23
        injection h23 with h2 h3
        obtain ⟨fw, mid, hfm⟩ := send_message_frame hsm
        refine ⟨h2.symm, ?_⟩
        rw [← h1, hfm]
  · injection h with h'
    injection h' with h1 h23
    injection h23 with h2 h3
    obtain ⟨fw2, hfw2⟩ := edit_message_frame env.editResp s2
    refine ⟨h2.symm, ?_⟩
    rw [← h1]
    show (edit_message env.editResp s2).messages = s2.messages
    rw [hfw2]

/-- Every successful flush removes an exact front span of the buffer: the
removed span is a `take` and what is left is the matching `drop`. -/
theorem handle_logs_removes {cfg : Cfg} {env : Env} {s s' : HState}
    {removed : Str} {evs : List Ev}
    (h : handle_logs cfg env s = .ok (s', removed, evs)) :
    removed = s.messages.take removed.length ∧
    s'.messages = s.messages.drop removed.length := by
  by_cases hlen : s.messages.length > cfg.pending
  · rw [handle_logs_file_eq cfg env s hlen] at h
    injection h with h'
    injection h' with h1 h23
    injection h23 with h2 h3
    subst h2
    refine ⟨pyChunk_take s.messages, ?_⟩
    obtain ⟨fw, hfw⟩ := send_as_file_frame env.fileResp
      { s with current_msg := [], message_id := 0
               messages := s.messages.drop (pyChunk s.messages).length }
    rw [← h1, hfw]
  · rw [handle_logs_text_eq cfg env s hlen] at h
    cases hb : bootstrap env
        { s with messages :=
            s.messages.drop (pyChunk (s.messages.take 4050)).length } with
    | error e => rw [hb] at h; cases h
    | ok pr =>
      obtain ⟨s2, evs0⟩ := pr
      rw [hb] at h
      dsimp only at h
      obtain ⟨hrm, hmsgs⟩ := textCont_out h
      subst hrm
      obtain ⟨fw, mid, hfm⟩ := bootstrap_frame hb
      constructor
      · have h1 := pyChunk_take (s.messages.take 4050)
        rw [List.take_take] at h1
        have h2 : (pyChunk (s.messages.take 4050)).length ≤ 4050 := by
          have := pyChunk_length_le (s.messages.take 4050)
          have hl : (s.messages.take 4050).length ≤ 4050 := by
            rw [List.length_take]; omega
          omega
        rwa [Nat.min_eq_left h2] at h1
      · rw [hmsgs, hfm]

/-! ### Evaluation lemmas for `emit` and `step` -/

theorem emit_ignored {cfg : Cfg} {s : HState} {line : Str} {now : Int}
    (h : ignoredLine cfg line = true) : emit cfg s line now = (s, false) := by
  unfold emit
  rw [if_pos h]

theorem emit_passed {cfg : Cfg} {s : HState} {line : Str} {now : Int}
    (h : ignoredLine cfg line = false)
    (hg : now - s.last_update ≥ max cfg.wait_time s.floodwait ∧
      s.lines + 1 ≥ cfg.minimum) :
    emit cfg s line now =
      ({ s with messages := s.messages ++ line ++ ['\n'], lines := 0
                floodwait := 0, last_update := now }, true) := by
  unfold emit
  rw [if_neg (by simp [h]), if_pos hg]

theorem emit_held {cfg : Cfg} {s : HState} {line : Str} {now : Int}
    (h : ignoredLine cfg line = false)
    (hg : ¬ (now - s.last_update ≥ max cfg.wait_time s.floodwait ∧
      s.lines + 1 ≥ cfg.minimum)) :
    emit cfg s line now =
      ({ s with messages := s.messages ++ line ++ ['\n']
                lines := s.lines + 1 }, false) := by
  unfold emit
  rw [if_neg (by simp [h]), if_neg hg]

theorem emit_messages (cfg : Cfg) (s : HState) (line : Str) (now : Int)
    (h : ignoredLine cfg line = false) :
    (emit cfg s line now).1.messages = s.messages ++ line ++ ['\n'] := by
  by_cases hg : now - s.last_update ≥ max cfg.wait_time s.floodwait ∧
      s.lines + 1 ≥ cfg.minimum
  · rw [emit_passed h hg]
  · rw [emit_held h hg]

theorem step_acc_eq {cfg : Cfg} {sys : Sys} {line : Str} {now : Int}
    {s' : HState} {sched : Bool}
    (he : emit cfg sys.st line now = (s', sched)) :
    step cfg sys (.acc line now) = some
      { st := s'
        tasks := sys.tasks + (if sched then 1 else 0)
        removedAll := sys.removedAll
        acceptedAll := sys.acceptedAll ++
          (if ignoredLine cfg line then [] else line ++ ['\n'])
        sentTexts := sys.sentTexts } := by
  unfold step
  dsimp only
  rw [he]

theorem step_flush_eq {cfg : Cfg} {sys : Sys} {env : Env}
    {s' : HState} {removed : Str} {evs : List Ev}
    (ht : sys.tasks ≠ 0)
    (hh : handle_logs cfg env sys.st = .ok (s', removed, evs)) :
    step cfg sys (.flush env) = some
      { st := s'
        tasks := sys.tasks - 1
        removedAll := sys.removedAll ++ removed
        acceptedAll := sys.acceptedAll
        sentTexts := sys.sentTexts ++ textPayloads evs } := by
  unfold step
  dsimp only
  rw [if_neg ht, hh]

/-! ### The no-gap/no-duplication invariant -/

/-- Ghost invariant: the spans removed so far, followed by what is still
buffered, are exactly the accepted lines (each with its newline). -/
def ghostInv (sys : Sys) : Prop :=
  sys.removedAll ++ sys.st.messages = sys.acceptedAll

theorem step_preserves_ghostInv {cfg : Cfg} {sys sys' : Sys} {e : Step}
    (h : step cfg sys e = some sys') (hi : ghostInv sys) : ghostInv sys' := by
  cases e with
  | acc line now =>
    cases he : emit cfg sys.st line now with
    | mk s' sched =>
      rw [step_acc_eq he] at h
      injection h with h'
      subst h'
      unfold ghostInv at hi ⊢
      by_cases hig : ignoredLine cfg line = true
      · rw [emit_ignored hig] at he
        injection he with he1 he2
        simp [hig, ← he1, hi]
      · have hig' : ignoredLine cfg line = false := by
          revert hig; cases ignoredLine cfg line <;> simp
        have hm := emit_messages cfg sys.st line now hig'
        rw [he] at hm
        simp only [hig', Bool.false_eq_true, if_false]
        rw [hm, ← List.append_assoc, ← List.append_assoc, hi,
          List.append_assoc]
  | flush env =>
    unfold step at h
    dsimp only at h
    by_cases ht : sys.tasks = 0
    · rw [if_pos ht] at h
      cases h
    · rw [if_neg ht] at h
      cases hh : handle_logs cfg env sys.st with
      | error e => rw [hh] at h; cases h
      | ok out =>
        obtain ⟨s', removed, evs⟩ := out
        rw [hh] at h
        injection h with h'
        subst h'
        unfold ghostInv at hi ⊢
        obtain ⟨hr, hm⟩ := handle_logs_removes hh
        show (sys.removedAll ++ removed) ++ s'.messages = sys.acceptedAll
        rw [hm, List.append_assoc]
        have hsplit : removed ++ List.drop removed.length sys.st.messages =
            sys.st.messages := by
          nth_rewrite 1 [hr]
          rw [List.take_append_drop]
        rw [hsplit]
        exact hi

theorem foldlM_ghostInv {cfg : Cfg} :
    ∀ (tr : List Step) (sys0 sys : Sys), ghostInv sys0 →
      List.foldlM (step cfg) sys0 tr = some sys → ghostInv sys := by
  intro tr
  induction tr with
  | nil =>
    intro sys0 sys h0 h
    have h' : (some sys0 : Option Sys) = some sys := h
    injection h' with h2
    rw [← h2]
    exact h0
  | cons e tr ih =>
    intro sys0 sys h0 h
    rw [List.foldlM_cons] at h
    cases hs : step cfg sys0 e with
    | none => rw [hs] at h; cases h
    | some sys1 =>
      rw [hs] at h
      have h' : List.foldlM (step cfg) sys1 tr = some sys := h
      exact ih sys1 sys (step_preserves_ghostInv hs h0) h'

/-- The invariant holds along every run from the initial state. -/
theorem runTrace_ghostInv {cfg : Cfg} {tr : List Step} {sys : Sys}
    (h : runTrace cfg tr = some sys) : ghostInv sys :=
  foldlM_ghostInv tr initSys sys (by unfold ghostInv initSys initState; rfl) h

/-! ### Further characterisations -/

/-- The code's `pyChunk` agrees with the amended file-span description. -/
theorem pyChunk_eq_fileSpanAmended (t : Str) : pyChunk t = fileSpanAmended t := by
  unfold fileSpanAmended
  cases h : lastNL? t with
  | none => exact pyChunk_of_none h
  | some p =>
    dsimp only
    by_cases hp : p = 0
    · rw [if_pos hp, pyChunk_of_zero (hp ▸ h)]
    · rw [if_neg hp, pyChunk_of_pos h (Nat.pos_of_ne_zero hp)]

/-- The code's text-path chunk agrees with the amended chunk description. -/
theorem pyChunk_eq_textChunkAmended (msgs : Str) :
    pyChunk (msgs.take 4050) = textChunkAmended msgs := by
  unfold textChunkAmended
  exact pyChunk_eq_fileSpanAmended (msgs.take 4050)

theorem send_message_ok {r : TgResponse} (s : HState)
    (h : r.ok = true → r.result.isSome = true) :
    ∃ s5, send_message r s = .ok s5 := by
  by_cases hok : r.ok = true
  · have hres := h hok
    cases hr : r.result with
    | none => rw [hr] at hres; cases hres
    | some res =>
      refine ⟨{ s with message_id := res.message_id }, ?_⟩
      unfold send_message
      rw [if_pos hok, hr]
  · refine ⟨handle_error r s, ?_⟩
    unfold send_message
    rw [if_neg hok]

theorem initialise_ok {r : TgResponse} (s : HState)
    (h : r.ok = true → r.result.isSome = true) :
    ∃ s2, initialise r s = .ok s2 := by
  by_cases hok : r.ok = true
  · have hres := h hok
    cases hr : r.result with
    | none => rw [hr] at hres; cases hres
    | some res =>
      refine ⟨{ s with message_id := res.message_id }, ?_⟩
      unfold initialise
      rw [if_pos hok, hr]
  · refine ⟨handle_error r s, ?_⟩
    unfold initialise
    rw [if_neg hok]

theorem bootstrap_ok {env : Env} (s1 : HState)
    (hv : s1.message_id = 0 → ∃ v, verify_bot env.verifyResp = .ok v)
    (hi : env.initResp.ok = true → env.initResp.result.isSome = true) :
    ∃ s2 evs0, bootstrap env s1 = .ok (s2, evs0) := by
  by_cases hmid : s1.message_id = 0
  · obtain ⟨v, hvv⟩ := hv hmid
    obtain ⟨s2, hii⟩ := @initialise_ok env.initResp s1 hi
    refine ⟨s2, [.initMsg], ?_⟩
    unfold bootstrap
    rw [if_pos hmid, hvv, hii]
  · exact ⟨s1, [], bootstrap_skip hmid⟩

theorem textCont_ok {env : Env} (s2 : HState) (msg : Str) (evs0 : List Ev)
    (hs : env.sendResp.ok = true → env.sendResp.result.isSome = true) :
    ∃ out, textCont env s2 msg evs0 = .ok out := by
  by_cases hov : (s2.current_msg ++ msg).length > 4050
  · by_cases hne : pyChunk ((s2.current_msg ++ msg).take 4050) = s2.current_msg
    · rw [textCont_roll_skip rfl rfl hov hne]
      obtain ⟨s5, hs5⟩ := send_message_ok { s2 with current_msg := List.drop (pyChunk (List.take 4050 (s2.current_msg ++ msg))).length (s2.current_msg ++ msg) } hs
      rw [hs5]
      exact ⟨_, rfl⟩
    · rw [textCont_roll rfl rfl hov hne]
      obtain ⟨s5, hs5⟩ := send_message_ok { edit_message env.editResp s2 with current_msg := List.drop (pyChunk (List.take 4050 (s2.current_msg ++ msg))).length (s2.current_msg ++ msg) } hs
      rw [hs5]
      exact ⟨_, rfl⟩
  · exact ⟨_, textCont_fit rfl hov⟩

/-- The 4050-character window over the C4 candidate. -/
theorem C4take : ((['\n'] : Str) ++ List.replicate 4050 'x').take 4050 = teC4 := by
  rw [List.take_append_eq_append_take, List.take_replicate,
    List.take_of_length_le (by decide : (['\n'] : Str).length ≤ 4050)]
  show (['\n'] : Str) ++ List.replicate (min (4050 - 1) 4050) 'x' = teC4
  rw [(by decide : (4050 : Nat) - 1 = 4049), Nat.min_eq_left (by decide)]
  rfl

/-- The C4 window's only newline is at position 0. -/
theorem C4lastNL : lastNL? teC4 = some 0 := by
  unfold teC4
  rw [lastNL?_cons, lastNL?_replicate 4049 (by decide)]
  decide

/-- The chunk the code edits at the C4 candidate is the whole window. -/
theorem C4chunk : pyChunk (((['\n'] : Str) ++ List.replicate 4050 'x').take 4050) = teC4 := by
  rw [C4take]
  exact pyChunk_of_zero C4lastNL

/-- The amended split description agrees with the code at the C4 candidate. -/
theorem C4amendChunk : textChunkAmended ((['\n'] : Str) ++ List.replicate 4050 'x') = teC4 := by
  unfold textChunkAmended
  dsimp only
  rw [C4take, C4lastNL]
  rfl

/-- The claim's split description yields the empty left part at the C4
candidate. -/
theorem C4specLeft : specSplitLeft ((['\n'] : Str) ++ List.replicate 4050 'x') = [] := by
  unfold specSplitLeft
  rw [C4take, C4lastNL]
  rfl

/-- The edited left part is not the newline alone. -/
theorem C4ne : teC4 ≠ (['\n'] : Str) := by
  intro h
  have h2 := congrArg List.length h
  unfold teC4 at h2
  simp only [List.length_cons, List.length_replicate, List.length_nil] at h2
  omega

/-- Full evaluation of one flush at `stC4`: the code hard-cuts the composed
candidate at 4050 even though the candidate's only newline, at position 0,
lies inside that window. -/
theorem C4flush_eval :
    handle_logs defaultCfg benignEnv stC4 = .ok
      ({ messages := ['x', '\n'], current_msg := ['x'], floodwait := 0
         message_id := 1, lines := 0, last_update := 0 },
       List.replicate 4050 'x', [Ev.editText teC4, Ev.sendText ['x']]) := by
  have hlen : ¬ stC4.messages.length > defaultCfg.pending := by
    show ¬ msgsC4.length > 200000
    unfold msgsC4
    rw [List.length_append, List.length_replicate]
    decide
  rw [handle_logs_text_eq defaultCfg benignEnv stC4 hlen]
  have hslice : stC4.messages.take 4050 = List.replicate 4050 'x' := by
    show msgsC4.take 4050 = _
    unfold msgsC4
    rw [List.take_append_eq_append_take, List.take_replicate, List.length_replicate]
    rw [Nat.min_eq_left (by decide), (by decide : (4050 : Nat) - 4051 = 0),
      List.take_zero, List.append_nil]
  have hchunk : pyChunk (stC4.messages.take 4050) = List.replicate 4050 'x' := by
    rw [hslice]
    exact pyChunk_of_none (lastNL?_replicate 4050 (by decide))
  rw [hchunk]
  have hdrop : stC4.messages.drop (List.replicate 4050 'x' : Str).length = ['x', '\n'] := by
    show msgsC4.drop _ = _
    unfold msgsC4
    rw [List.length_replicate, List.drop_append_eq_append_drop, List.drop_replicate,
      List.length_replicate, (by decide : (4051 : Nat) - 4050 = 1),
      (by decide : (4050 : Nat) - 4051 = 0), List.drop_zero]
    rfl
  rw [hdrop]
  rw [@bootstrap_skip benignEnv { stC4 with messages := ['x', '\n'] } (by decide)]
  dsimp only
  show textCont benignEnv { messages := ['x', '\n'], current_msg := ['\n'], floodwait := 0, message_id := 1, lines := 0, last_update := 0 } (List.replicate 4050 'x') [] = _
  have htn : ((['\n'] : Str) ++ List.replicate 4050 'x').drop teC4.length = ['x'] := by
    have hlenTe : teC4.length = 4050 := by
      unfold teC4
      rw [List.length_cons, List.length_replicate]
    rw [hlenTe, List.drop_append_eq_append_drop, List.drop_replicate,
      List.drop_of_length_le (by decide : (['\n'] : Str).length ≤ 4050)]
    show List.replicate (4050 - (4050 - (['\n'] : Str).length)) 'x' = ['x']
    rw [(by decide : (4050 : Nat) - ((['\n'] : Str).length) = 4049)]
    rw [(by decide : (4050 : Nat) - 4049 = 1)]
    rfl
  have hov : ((['\n'] : Str) ++ List.replicate 4050 'x').length > 4050 := by
    rw [List.length_append, List.length_replicate]
    decide
  rw [@textCont_roll benignEnv
    { messages := ['x', '\n'], current_msg := ['\n'], floodwait := 0, message_id := 1, lines := 0, last_update := 0 }
    (List.replicate 4050 'x') teC4 ['x'] [] C4chunk htn hov C4ne]
  rfl

/-- Full characterisation of the overflow continuation against a
well-formed successful send response. -/
theorem textCont_full {env : Env} {s2 : HState} {msg : Str} {evs0 : List Ev}
    {s' : HState} {removed : Str} {evs : List Ev} {res : TgResult}
    (hok : env.sendResp.ok = true) (hres : env.sendResp.result = some res)
    (h : textCont env s2 msg evs0 = .ok (s', removed, evs))
    (hov : 4050 < (s2.current_msg ++ msg).length) :
    removed = msg ∧
    s'.current_msg = (s2.current_msg ++ msg).drop
      (pyChunk ((s2.current_msg ++ msg).take 4050)).length ∧
    s'.message_id = res.message_id ∧
    (pyChunk ((s2.current_msg ++ msg).take 4050) ≠ s2.current_msg →
      evs = evs0 ++ [Ev.editText (pyChunk ((s2.current_msg ++ msg).take 4050)),
        Ev.sendText ((s2.current_msg ++ msg).drop
          (pyChunk ((s2.current_msg ++ msg).take 4050)).length)]) ∧
    (pyChunk ((s2.current_msg ++ msg).take 4050) = s2.current_msg →
      evs = evs0 ++ [Ev.sendText ((s2.current_msg ++ msg).drop
        (pyChunk ((s2.current_msg ++ msg).take 4050)).length)]) := by
  unfold textCont at h
  dsimp only at h
  rw [if_pos hov] at h
  by_cases hne : pyChunk ((s2.current_msg ++ msg).take 4050) = s2.current_msg
  · rw [if_neg (by simp [hne])] at h
    dsimp only at h
    have hsm : send_message env.sendResp { s2 with current_msg := List.drop (pyChunk (List.take 4050 (s2.current_msg ++ msg))).length (s2.current_msg ++ msg) } = .ok { s2 with current_msg := List.drop (pyChunk (List.take 4050 (s2.current_msg ++ msg))).length (s2.current_msg ++ msg), message_id := res.message_id } := by
      unfold send_message
      rw [if_pos hok, hres]
    rw [hsm] at h
    injection h with h'
    injection h' with h1 h23
    injection h23 with h2 h3
    refine ⟨h2.symm, ?_, ?_, ?_, ?_⟩
    · rw [← h1]
    · rw [← h1]
    · intro hcontra
      exact absurd hne hcontra
    · intro _
      rw [← h3]
      simp
  · rw [if_pos hne] at h
    dsimp only at h
    have hsm : send_message env.sendResp { edit_message env.editResp s2 with current_msg := List.drop (pyChunk (List.take 4050 (s2.current_msg ++ msg))).length (s2.current_msg ++ msg) } = .ok { edit_message env.editResp s2 with current_msg := List.drop (pyChunk (List.take 4050 (s2.current_msg ++ msg))).length (s2.current_msg ++ msg), message_id := res.message_id } := by
      unfold send_message
      rw [if_pos hok, hres]
    rw [hsm] at h
    injection h with h'
    injection h' with h1 h23
    injection h23 with h2 h3
    refine ⟨h2.symm, ?_, ?_, ?_, ?_⟩
    · rw [← h1]
    · rw [← h1]
    · intro _
      rw [← h3]
      simp
    · intro hcontra
      exact absurd hcontra hne

/-- One resolved step peels off the head of a run. -/
theorem runSteps {cfg : Cfg} {e : Step} {tr : List Step} {sys0 sys1 : Sys}
    (h : step cfg sys0 e = some sys1) :
    List.foldlM (step cfg) sys0 (e :: tr) = List.foldlM (step cfg) sys1 tr := by
  rw [List.foldlM_cons, h]
  rfl

/-- The bootstrap issues at most the placeholder request. -/
theorem bootstrap_evs {env : Env} {s1 s2 : HState} {evs0 : List Ev}
    (h : bootstrap env s1 = .ok (s2, evs0)) :
    evs0 = [] ∨ evs0 = [Ev.initMsg] := by
  unfold bootstrap at h
  split at h
  · cases hv : verify_bot env.verifyResp with
    | error e => rw [hv] at h; cases h
    | ok v =>
      rw [hv] at h
      cases hi : initialise env.initResp s1 with
      | error e => rw [hi] at h; cases h
      | ok s2' =>
        rw [hi] at h
        injection h with h'
        injection h' with h1 h2
        exact Or.inr h2.symm
  · injection h with h'
    injection h' with h1 h2
    exact Or.inl h2.symm

/-- The last newline of a line-plus-newline block sits at the line's end. -/
theorem lastNL?_line (n : Nat) :
    lastNL? (List.replicate n 'x' ++ ['\n']) = some n := by
  rw [lastNL?_append, (by decide : lastNL? (['\n'] : Str) = some 0)]
  dsimp only
  rw [List.length_replicate, Nat.add_zero]

/-- Evaluation of the third flush of the C3 run: the whole buffered line is
appended to the committed text, filling it to exactly 4050 characters. -/
theorem C3flush3 :
    handle_logs defaultCfg benignEnv sysC3e.st = .ok
      ({ messages := strL "\n", current_msg := compC3, floodwait := 0
         message_id := 1, lines := 0, last_update := 30 },
       '\n' :: g1C3, [Ev.editText compC3]) := by
  show handle_logs defaultCfg benignEnv { messages := '\n' :: (g1C3 ++ ['\n']), current_msg := strL "a\nb", floodwait := 0, message_id := 1, lines := 0, last_update := 30 } = _
  have hlg : (('\n' :: (g1C3 ++ ['\n'])) : Str).length = 4048 := by
    unfold g1C3
    rw [List.length_cons, List.length_append, List.length_replicate]
    decide
  have hlen : ¬ (('\n' :: (g1C3 ++ ['\n'])) : Str).length > defaultCfg.pending := by
    rw [hlg]
    decide
  rw [handle_logs_text_eq _ _ _ hlen]
  have hsl : (('\n' :: (g1C3 ++ ['\n'])) : Str).take 4050 = '\n' :: (g1C3 ++ ['\n']) :=
    List.take_of_length_le (by rw [hlg]; decide)
  have hnl : lastNL? ('\n' :: (g1C3 ++ ['\n'])) = some 4047 := by
    rw [lastNL?_cons]
    unfold g1C3
    rw [lastNL?_line]
  have htk : (('\n' :: (g1C3 ++ ['\n'])) : Str).take 4047 = '\n' :: g1C3 := by
    show ((['\n'] : Str) ++ (g1C3 ++ ['\n'])).take 4047 = '\n' :: g1C3
    rw [List.take_append_eq_append_take,
      List.take_of_length_le (by decide : (['\n'] : Str).length ≤ 4047),
      (by decide : (4047 : Nat) - (['\n'] : Str).length = 4046),
      List.take_append_eq_append_take,
      List.take_of_length_le (by unfold g1C3; rw [List.length_replicate] : g1C3.length ≤ 4046)]
    show (['\n'] : Str) ++ (g1C3 ++ (List.take (4046 - g1C3.length) ['\n'])) = '\n' :: g1C3
    rw [(by unfold g1C3; rw [List.length_replicate] : (4046 : Nat) - g1C3.length = 0),
      List.take_zero, List.append_nil]
    rfl
  have hchunk : pyChunk ((('\n' :: (g1C3 ++ ['\n'])) : Str).take 4050) = '\n' :: g1C3 := by
    rw [hsl, pyChunk_of_pos hnl (by decide), htk]
  rw [hchunk]
  have hlc : (('\n' :: g1C3) : Str).length = 4047 := by
    unfold g1C3
    rw [List.length_cons, List.length_replicate]
  have hdr : (('\n' :: (g1C3 ++ ['\n'])) : Str).drop (('\n' :: g1C3) : Str).length = strL "\n" := by
    rw [hlc]
    show ((['\n'] : Str) ++ (g1C3 ++ ['\n'])).drop 4047 = strL "\n"
    rw [List.drop_append_eq_append_drop,
      List.drop_of_length_le (by decide : (['\n'] : Str).length ≤ 4047),
      (by decide : (4047 : Nat) - (['\n'] : Str).length = 4046),
      List.drop_append_eq_append_drop,
      List.drop_of_length_le (by unfold g1C3; rw [List.length_replicate] : g1C3.length ≤ 4046),
      (by unfold g1C3; rw [List.length_replicate] : (4046 : Nat) - g1C3.length = 0),
      List.drop_zero]
    rfl
  rw [hdr]
  rw [@bootstrap_skip benignEnv { messages := strL "\n", current_msg := strL "a\nb", floodwait := 0, message_id := 1, lines := 0, last_update := 30 } (by decide)]
  dsimp only
  have hfit : ¬ (compC3 : Str).length > 4050 := by
    unfold compC3 g1C3
    rw [List.length_append, List.length_cons, List.length_replicate]
    decide
  rw [@textCont_fit benignEnv { messages := strL "\n", current_msg := strL "a\nb", floodwait := 0, message_id := 1, lines := 0, last_update := 30 } ('\n' :: g1C3) compC3 [] rfl hfit]
  rfl

/-- Length of the committed text after the third flush. -/
theorem compC3_len : compC3.length = 4050 := by
  unfold compC3 g1C3
  rw [List.length_append, List.length_cons, List.length_replicate]
  decide

/-- The last newline of the committed text sits at position 3. -/
theorem compC3_lastNL : lastNL? compC3 = some 3 := by
  unfold compC3
  rw [lastNL?_append, lastNL?_cons]
  unfold g1C3
  rw [lastNL?_replicate 4046 (by decide)]
  decide

/-- Evaluation of the fourth flush of the C3 run: the candidate is 8100
characters, the window is exactly the committed text with its last newline
at position 3, so the code edits the 3-character left part and sends the
8097-character remainder as the new message. -/
theorem C3flush4 :
    handle_logs defaultCfg benignEnv sysC3g.st = .ok
      ({ messages := List.replicate 3951 'x' ++ ['\n'], current_msg := tnC3
         floodwait := 0, message_id := 1, lines := 0, last_update := 40 },
       '\n' :: List.replicate 4049 'x',
       [Ev.editText (strL "a\nb"), Ev.sendText tnC3]) := by
  show handle_logs defaultCfg benignEnv { messages := '\n' :: (g2C3 ++ ['\n']), current_msg := compC3, floodwait := 0, message_id := 1, lines := 0, last_update := 40 } = _
  have hlg : (('\n' :: (g2C3 ++ ['\n'])) : Str).length = 8002 := by
    unfold g2C3
    rw [List.length_cons, List.length_append, List.length_replicate]
    decide
  have hlen : ¬ (('\n' :: (g2C3 ++ ['\n'])) : Str).length > defaultCfg.pending := by
    rw [hlg]
    decide
  rw [handle_logs_text_eq _ _ _ hlen]
  have hsl : (('\n' :: (g2C3 ++ ['\n'])) : Str).take 4050 = '\n' :: List.replicate 4049 'x' := by
    show ((['\n'] : Str) ++ (g2C3 ++ ['\n'])).take 4050 = '\n' :: List.replicate 4049 'x'
    rw [List.take_append_eq_append_take,
      List.take_of_length_le (by decide : (['\n'] : Str).length ≤ 4050),
      (by decide : (4050 : Nat) - (['\n'] : Str).length = 4049),
      List.take_append_eq_append_take]
    unfold g2C3
    rw [List.take_replicate, List.length_replicate, Nat.min_eq_left (by decide),
      (by decide : (4049 : Nat) - 8000 = 0), List.take_zero, List.append_nil]
    rfl
  have hchunk : pyChunk ((('\n' :: (g2C3 ++ ['\n'])) : Str).take 4050) = '\n' :: List.replicate 4049 'x' := by
    rw [hsl]
    exact pyChunk_of_zero C4lastNL
  rw [hchunk]
  have hdr : (('\n' :: (g2C3 ++ ['\n'])) : Str).drop (('\n' :: List.replicate 4049 'x') : Str).length = List.replicate 3951 'x' ++ ['\n'] := by
    rw [(by rw [List.length_cons, List.length_replicate] : (('\n' :: List.replicate 4049 'x') : Str).length = 4050)]
    show ((['\n'] : Str) ++ (g2C3 ++ ['\n'])).drop 4050 = List.replicate 3951 'x' ++ ['\n']
    rw [List.drop_append_eq_append_drop,
      List.drop_of_length_le (by decide : (['\n'] : Str).length ≤ 4050),
      (by decide : (4050 : Nat) - (['\n'] : Str).length = 4049),
      List.drop_append_eq_append_drop]
    unfold g2C3
    rw [List.drop_replicate, List.length_replicate,
      (by decide : (8000 : Nat) - 4049 = 3951),
      (by decide : (4049 : Nat) - 8000 = 0), List.drop_zero]
    rfl
  rw [hdr]
  rw [@bootstrap_skip benignEnv { messages := List.replicate 3951 'x' ++ ['\n'], current_msg := compC3, floodwait := 0, message_id := 1, lines := 0, last_update := 40 } (by decide)]
  dsimp only
  have hcomp : (compC3 : Str) ++ ('\n' :: List.replicate 4049 'x') = compC3 ++ ('\n' :: List.replicate 4049 'x') := rfl
  have hwin : ((compC3 : Str) ++ ('\n' :: List.replicate 4049 'x')).take 4050 = compC3 := by
    rw [List.take_append_eq_append_take, List.take_of_length_le (by rw [compC3_len]),
      (by rw [compC3_len] : (4050 : Nat) - compC3.length = 0), List.take_zero, List.append_nil]
  have hte : pyChunk (((compC3 : Str) ++ ('\n' :: List.replicate 4049 'x')).take 4050) = strL "a\nb" := by
    rw [hwin, pyChunk_of_pos compC3_lastNL (by decide)]
    unfold compC3
    rw [List.take_append_eq_append_take,
      List.take_of_length_le (by decide : (strL "a\nb").length ≤ 3),
      (by decide : (3 : Nat) - (strL "a\nb").length = 0), List.take_zero, List.append_nil]
  have htn : ((compC3 : Str) ++ ('\n' :: List.replicate 4049 'x')).drop (strL "a\nb").length = tnC3 := by
    show ((compC3 : Str) ++ ('\n' :: List.replicate 4049 'x')).drop 3 = tnC3
    rw [List.drop_append_eq_append_drop]
    unfold compC3
    rw [List.drop_append_eq_append_drop,
      List.drop_of_length_le (by decide : (strL "a\nb").length ≤ 3),
      (by decide : (3 : Nat) - (strL "a\nb").length = 0), List.drop_zero]
    show ([] ++ ('\n' :: g1C3)) ++ (('\n' :: List.replicate 4049 'x') : Str).drop (3 - (strL "a\nb" ++ ('\n' :: g1C3)).length) = tnC3
    rw [(by unfold g1C3; rw [List.length_append, List.length_cons, List.length_replicate]; decide
          : (3 : Nat) - ((strL "a\nb" ++ ('\n' :: g1C3)) : Str).length = 0),
      List.drop_zero, List.nil_append]
    rfl
  have hov : ((compC3 : Str) ++ ('\n' :: List.replicate 4049 'x')).length > 4050 := by
    rw [List.length_append, compC3_len, List.length_cons, List.length_replicate]
    decide
  have hne : strL "a\nb" ≠ (compC3 : Str) := by
    intro h
    have h2 := congrArg List.length h
    rw [compC3_len] at h2
    exact absurd h2 (by decide)
  rw [@textCont_roll benignEnv { messages := List.replicate 3951 'x' ++ ['\n'], current_msg := compC3, floodwait := 0, message_id := 1, lines := 0, last_update := 40 } ('\n' :: List.replicate 4049 'x') (strL "a\nb") tnC3 [] hte htn hov hne]
  rfl

end TG

open TG

/-- C1, counterexample.  The claim says the concatenation of all spans ever
removed equals the concatenation of all accepted lines each followed by a
newline.  After accepting the line `a` and flushing once, the removed spans
concatenate to `a` while the accepted concatenation is `a` plus a newline:
`rsplit` keeps the trailing newline in the buffer, so the two are never
equal while the buffer is nonempty. -/
theorem C1_counterexample :
    runTrace defaultCfg [Step.acc (strL "a") 10, Step.flush benignEnv] =
      some { st := { messages := strL "\n", current_msg := strL "a"
                     floodwait := 0, message_id := 1, lines := 0
                     last_update := 10 }
             tasks := 0, removedAll := strL "a", acceptedAll := strL "a\n"
             sentTexts := [strL "a"] } ∧
    ¬ strL "a" = strL "a\n" := by decide

/-- C1, amended.  Along every run, each successful flush removes an exact
front span of PendingBuffer — the very span it hands off (on the file path
the span is literally the file payload) — and the concatenation of all spans
ever removed, followed by what is still buffered, equals the concatenation
of all accepted lines each followed by a newline.  Plain equality of the two
concatenations holds only once the buffer has fully drained. -/
theorem C1_amended :
    (∀ (cfg : Cfg) (tr : List Step) (sys : Sys), runTrace cfg tr = some sys →
        sys.removedAll ++ sys.st.messages = sys.acceptedAll) ∧
    (∀ (cfg : Cfg) (env : Env) (s s' : HState) (removed : Str) (evs : List Ev),
        handle_logs cfg env s = .ok (s', removed, evs) →
        removed = s.messages.take removed.length ∧
        s'.messages = s.messages.drop removed.length ∧
        (s.messages.length > cfg.pending → evs = [Ev.sendFile removed])) := by
  constructor
  · intro cfg tr sys h
    exact runTrace_ghostInv h
  · intro cfg env s s' removed evs h
    obtain ⟨h1, h2⟩ := handle_logs_removes h
    refine ⟨h1, h2, ?_⟩
    intro hlen
    rw [handle_logs_file_eq cfg env s hlen] at h
    injection h with h'
    injection h' with ha hbc
    injection hbc with hb hc
    rw [← hc, hb]

/-- C1, witness: the amended statement applied to a concrete one-line run. -/
theorem C1_witness :
    runTrace defaultCfg [Step.acc (strL "hi") 10, Step.flush benignEnv] =
      some { st := { messages := strL "\n", current_msg := strL "hi"
                     floodwait := 0, message_id := 1, lines := 0
                     last_update := 10 }
             tasks := 0, removedAll := strL "hi", acceptedAll := strL "hi\n"
             sentTexts := [strL "hi"] } ∧
    strL "hi" ++ strL "\n" = strL "hi\n" := by
  refine ⟨by decide, ?_⟩
  have := C1_amended.1 defaultCfg
    [Step.acc (strL "hi") 10, Step.flush benignEnv]
    { st := { messages := strL "\n", current_msg := strL "hi"
              floodwait := 0, message_id := 1, lines := 0, last_update := 10 }
      tasks := 0, removedAll := strL "hi", acceptedAll := strL "hi\n"
      sentTexts := [strL "hi"] } (by decide)
  exact this

/-- C2, counterexample.  The claim says a single flush removes at most
`pending_logs` characters on the file path.  With `pending_logs = 5` and
buffer `abc`, newline, `def`, newline (8 characters, which exceeds the
threshold), the file path removes the 7-character span up to the last
newline — more than `pending_logs`. -/
theorem C2_counterexample :
    handle_logs { wait_time := 5, minimum := 1, pending := 5
                  ignore_match := none } benignEnv
        { messages := strL "abc\ndef\n", current_msg := [], floodwait := 0
          message_id := 1, lines := 0, last_update := 0 } =
      .ok ({ messages := strL "\n", current_msg := [], floodwait := 0
             message_id := 0, lines := 0, last_update := 0 },
           strL "abc\ndef", [Ev.sendFile (strL "abc\ndef")]) ∧
    ¬ (strL "abc\ndef").length ≤ 5 := by decide

/-- C2, amended.  A single flush removes at most 4050 characters on the text
path (buffer length at most `pending_logs`); on the file path it removes at
most the whole buffer, a bound that can exceed `pending_logs`. -/
theorem C2_amended :
    ∀ (cfg : Cfg) (env : Env) (s s' : HState) (removed : Str) (evs : List Ev),
      handle_logs cfg env s = .ok (s', removed, evs) →
      (s.messages.length ≤ cfg.pending → removed.length ≤ 4050) ∧
      removed.length ≤ s.messages.length := by
  intro cfg env s s' removed evs h
  obtain ⟨h1, h2⟩ := handle_logs_removes h
  constructor
  · intro hle
    have hlen : ¬ s.messages.length > cfg.pending := by omega
    rw [handle_logs_text_eq cfg env s hlen] at h
    cases hb : bootstrap env
        { s with messages :=
            s.messages.drop (pyChunk (s.messages.take 4050)).length } with
    | error e => rw [hb] at h; cases h
    | ok pr =>
      obtain ⟨s2, evs0⟩ := pr
      rw [hb] at h
      dsimp only at h
      obtain ⟨hrm, _⟩ := textCont_out h
      rw [hrm]
      have ha := pyChunk_length_le (s.messages.take 4050)
      have hb2 : (s.messages.take 4050).length ≤ 4050 := by
        rw [List.length_take]; omega
      omega
  · have := congrArg List.length h1
    rw [List.length_take] at this
    omega

/-- C2, witness: both bounds at a concrete small text flush. -/
theorem C2_witness :
    handle_logs defaultCfg benignEnv
        { messages := strL "hi\n", current_msg := [], floodwait := 0
          message_id := 1, lines := 0, last_update := 0 } =
      .ok ({ messages := strL "\n", current_msg := strL "hi", floodwait := 0
             message_id := 1, lines := 0, last_update := 0 },
           strL "hi", [Ev.editText (strL "hi")]) ∧
    (((strL "hi\n").length ≤ defaultCfg.pending → (strL "hi").length ≤ 4050) ∧
      (strL "hi").length ≤ (strL "hi\n").length) := by
  refine ⟨by decide, ?_⟩
  exact C2_amended defaultCfg benignEnv
    { messages := strL "hi\n", current_msg := [], floodwait := 0
      message_id := 1, lines := 0, last_update := 0 }
    { messages := strL "\n", current_msg := strL "hi", floodwait := 0
      message_id := 1, lines := 0, last_update := 0 }
    (strL "hi") [Ev.editText (strL "hi")] (by decide)

/-- C5, confirmed.  On every accepted non-ignored line, a flush is scheduled
iff the elapsed time since the last flush is at least
`max(update_interval, governor_wait)` and the post-append line count reaches
`minimum_lines`; with a pending `retry_after = 30` floor and
`update_interval = 5`, a line 29 seconds after the last flush schedules
nothing while one at 30 seconds does; with `update_interval = 5` and
`minimum_lines = 3`, two lines 6 seconds apart never schedule and a third
immediately after does. -/
theorem C5_gate :
    (∀ (cfg : Cfg) (s : HState) (line : Str) (now : Int),
        ignoredLine cfg line = false →
        ((emit cfg s line now).2 = true ↔
          (now - s.last_update ≥ max cfg.wait_time s.floodwait ∧
            s.lines + 1 ≥ cfg.minimum))) ∧
    ((emit defaultCfg { messages := [], current_msg := [], floodwait := 30, message_id := 1, lines := 9, last_update := 1000 } (strL "x") 1029).2 = false ∧
      (emit defaultCfg { messages := [], current_msg := [], floodwait := 30, message_id := 1, lines := 9, last_update := 1000 } (strL "x") 1030).2 = true) ∧
    ((emit cfgMin3 initState (strL "l1") 100).2 = false ∧
      (emit cfgMin3 (emit cfgMin3 initState (strL "l1") 100).1 (strL "l2") 106).2 = false ∧
      (emit cfgMin3 (emit cfgMin3 (emit cfgMin3 initState (strL "l1") 100).1 (strL "l2") 106).1 (strL "l3") 106).2 = true) := by
  refine ⟨?_, by decide, by decide⟩
  intro cfg s line now hig
  unfold emit
  rw [if_neg (by simp [hig])]
  dsimp only
  by_cases hg : now - s.last_update ≥ max cfg.wait_time s.floodwait ∧
      s.lines + 1 ≥ cfg.minimum
  · rw [if_pos hg]
    simp [hg]
  · rw [if_neg hg]
    exact iff_of_false (by simp) hg

/-- C5, witness: the gate equivalence applied to a concrete accepted line. -/
theorem C5_witness :
    ignoredLine defaultCfg (strL "INFO") = false ∧
    ((emit defaultCfg initState (strL "INFO") 10).2 = true ↔
      (10 - initState.last_update ≥ max defaultCfg.wait_time initState.floodwait ∧
        initState.lines + 1 ≥ defaultCfg.minimum)) :=
  ⟨by decide, C5_gate.1 defaultCfg initState (strL "INFO") 10 (by decide)⟩

/-- C6, counterexample.  The claim says the file path takes everything up to
and including the last newline.  With `pending_logs = 2` and buffer `ab`
plus newline, the code takes only `ab` — the newline stays in the buffer —
while the claim's span would be `ab` plus the newline. -/
theorem C6_counterexample :
    handle_logs cfgPend2 benignEnv { messages := strL "ab\n", current_msg := strL "z", floodwait := 0, message_id := 7, lines := 0, last_update := 0 } =
      .ok ({ messages := strL "\n", current_msg := [], floodwait := 0, message_id := 0, lines := 0, last_update := 0 },
           strL "ab", [Ev.sendFile (strL "ab")]) ∧
    specFileSpan (strL "ab\n") = strL "ab\n" ∧
    ¬ strL "ab" = strL "ab\n" := by decide

/-- C6, amended.  When PendingBuffer is longer than `pending_logs`, the next
flush takes everything strictly before the last newline (the whole buffer
when that would be empty: no newline, or the only newline at position 0),
removes that span from the front, dispatches exactly it on the file path,
and resets the session: committed text empty and message id absent. -/
theorem C6_amended :
    ∀ (cfg : Cfg) (env : Env) (s s' : HState) (removed : Str) (evs : List Ev),
      cfg.pending < s.messages.length →
      handle_logs cfg env s = .ok (s', removed, evs) →
      removed = fileSpanAmended s.messages ∧
      s'.messages = s.messages.drop removed.length ∧
      s'.current_msg = [] ∧ s'.message_id = 0 ∧
      evs = [Ev.sendFile removed] := by
  intro cfg env s s' removed evs hlen h
  rw [handle_logs_file_eq cfg env s hlen] at h
  injection h with h'
  injection h' with ha hbc
  injection hbc with hb hc
  obtain ⟨fw, hfw⟩ := send_as_file_frame env.fileResp
    { s with current_msg := [], message_id := 0
             messages := s.messages.drop (pyChunk s.messages).length }
  refine ⟨?_, ?_, ?_, ?_, ?_⟩
  · rw [← hb, pyChunk_eq_fileSpanAmended]
  · rw [← ha, hfw, ← hb]
  · rw [← ha, hfw]
  · rw [← ha, hfw]
  · rw [← hc, hb]

/-- C6, witness: the amended statement at the concrete overfull buffer. -/
theorem C6_witness :
    handle_logs cfgPend2 benignEnv { messages := strL "ab\n", current_msg := strL "z", floodwait := 0, message_id := 7, lines := 0, last_update := 0 } =
      .ok ({ messages := strL "\n", current_msg := [], floodwait := 0, message_id := 0, lines := 0, last_update := 0 },
           strL "ab", [Ev.sendFile (strL "ab")]) ∧
    (strL "ab" = fileSpanAmended (strL "ab\n") ∧
      strL "\n" = (strL "ab\n").drop (strL "ab").length ∧
      ([] : Str) = [] ∧ (0 : Nat) = 0 ∧
      [Ev.sendFile (strL "ab")] = [Ev.sendFile (strL "ab")]) := by
  refine ⟨by decide, ?_⟩
  have h := C6_amended cfgPend2 benignEnv
    { messages := strL "ab\n", current_msg := strL "z", floodwait := 0, message_id := 7, lines := 0, last_update := 0 }
    { messages := strL "\n", current_msg := [], floodwait := 0, message_id := 0, lines := 0, last_update := 0 }
    (strL "ab") [Ev.sendFile (strL "ab")] (by decide) (by decide)
  exact ⟨h.1, h.2.1, h.2.2.1, h.2.2.2.1, h.2.2.2.2⟩

/-- C7, counterexample.  The claim says a text-path flush uses the full
slice only when the slice contains no newline at all.  With buffer newline
then `ab`, the slice contains a newline (at position 0), yet the code takes
the full slice, not the cut at the last newline that the claim prescribes. -/
theorem C7_counterexample :
    handle_logs defaultCfg benignEnv { messages := strL "\nab", current_msg := [], floodwait := 0, message_id := 1, lines := 0, last_update := 0 } =
      .ok ({ messages := [], current_msg := strL "\nab", floodwait := 0, message_id := 1, lines := 0, last_update := 0 },
           strL "\nab", [Ev.editText (strL "\nab")]) ∧
    lastNL? ((strL "\nab").take 4050) = some 0 ∧
    ¬ strL "\nab" = specTextChunk (strL "\nab") := by decide

/-- C7, amended.  A text-path flush (buffer length at most `pending_logs`)
takes the first-4050-character slice cut strictly before its last newline;
the full slice is used exactly when that cut would be empty — when the
slice has no newline, or its only newline is at position 0. -/
theorem C7_amended :
    ∀ (cfg : Cfg) (env : Env) (s s' : HState) (removed : Str) (evs : List Ev),
      s.messages.length ≤ cfg.pending →
      handle_logs cfg env s = .ok (s', removed, evs) →
      removed = textChunkAmended s.messages := by
  intro cfg env s s' removed evs hle h
  have hlen : ¬ s.messages.length > cfg.pending := by omega
  rw [handle_logs_text_eq cfg env s hlen] at h
  cases hb : bootstrap env
      { s with messages :=
          s.messages.drop (pyChunk (s.messages.take 4050)).length } with
  | error e => rw [hb] at h; cases h
  | ok pr =>
    obtain ⟨s2, evs0⟩ := pr
    rw [hb] at h
    dsimp only at h
    obtain ⟨hrm, _⟩ := textCont_out h
    rw [hrm, pyChunk_eq_textChunkAmended]

/-- C7, witness: the amended chunk at a concrete two-line buffer. -/
theorem C7_witness :
    handle_logs defaultCfg benignEnv { messages := strL "a\nb\n", current_msg := [], floodwait := 0, message_id := 1, lines := 0, last_update := 0 } =
      .ok ({ messages := strL "\n", current_msg := strL "a\nb", floodwait := 0, message_id := 1, lines := 0, last_update := 0 },
           strL "a\nb", [Ev.editText (strL "a\nb")]) ∧
    strL "a\nb" = textChunkAmended (strL "a\nb\n") := by
  refine ⟨by decide, ?_⟩
  exact C7_amended defaultCfg benignEnv
    { messages := strL "a\nb\n", current_msg := [], floodwait := 0, message_id := 1, lines := 0, last_update := 0 }
    { messages := strL "\n", current_msg := strL "a\nb", floodwait := 0, message_id := 1, lines := 0, last_update := 0 }
    (strL "a\nb") [Ev.editText (strL "a\nb")] (by decide) (by decide)

/-- C8, counterexample.  The claim says a non-ignored line always leaves the
counter incremented by exactly one.  With the default configuration
(`minimum_lines = 1`) the very call that buffers `INFO: ok` also schedules a
flush and resets the counter to zero, so after the call the counter is 0,
not `0 + 1`. -/
theorem C8_counterexample :
    (emit defaultCfg initState (strL "INFO: ok") 10).1.lines = 0 ∧
    (emit defaultCfg initState (strL "INFO: ok") 10).1.messages =
      strL "INFO: ok\n" ∧
    (emit defaultCfg initState (strL "INFO: ok") 10).2 = true ∧
    ¬ (0 : Nat) = initState.lines + 1 := by decide

/-- C8, amended.  An ignored line leaves the state untouched and schedules
nothing.  A non-ignored line is appended to PendingBuffer followed by a
newline; the counter becomes the old value plus one when no flush is
scheduled by this call, and zero when one is.  With ignore-match `DEBUG`,
the line `DEBUG: heartbeat` is dropped and `INFO: ok` is not. -/
theorem C8_amended :
    (∀ (cfg : Cfg) (s : HState) (line : Str) (now : Int),
        ignoredLine cfg line = true → emit cfg s line now = (s, false)) ∧
    (∀ (cfg : Cfg) (s : HState) (line : Str) (now : Int),
        ignoredLine cfg line = false →
        (emit cfg s line now).1.messages = s.messages ++ line ++ ['\n'] ∧
        ((emit cfg s line now).2 = false →
          (emit cfg s line now).1.lines = s.lines + 1) ∧
        ((emit cfg s line now).2 = true →
          (emit cfg s line now).1.lines = 0)) ∧
    ignoredLine cfgDBG (strL "DEBUG: heartbeat") = true ∧
    ignoredLine cfgDBG (strL "INFO: ok") = false := by
  refine ⟨?_, ?_, by decide, by decide⟩
  · intro cfg s line now h
    exact emit_ignored h
  · intro cfg s line now h
    by_cases hg : now - s.last_update ≥ max cfg.wait_time s.floodwait ∧
        s.lines + 1 ≥ cfg.minimum
    · rw [emit_passed h hg]
      exact ⟨rfl, (by intro hh; cases hh), (by intro _; rfl)⟩
    · rw [emit_held h hg]
      exact ⟨rfl, (by intro _; rfl), (by intro hh; cases hh)⟩

/-- C8, witness: both clauses at concrete lines under the `DEBUG` filter. -/
theorem C8_witness :
    emit cfgDBG { messages := strL "x\n", current_msg := [], floodwait := 0, message_id := 1, lines := 4, last_update := 50 } (strL "DEBUG: heartbeat") 51 =
      ({ messages := strL "x\n", current_msg := [], floodwait := 0, message_id := 1, lines := 4, last_update := 50 }, false) ∧
    (emit cfgDBG { messages := strL "x\n", current_msg := [], floodwait := 0, message_id := 1, lines := 4, last_update := 50 } (strL "INFO: ok") 51).1.messages =
      strL "x\n" ++ strL "INFO: ok" ++ ['\n'] := by
  constructor
  · exact C8_amended.1 cfgDBG
      { messages := strL "x\n", current_msg := [], floodwait := 0, message_id := 1, lines := 4, last_update := 50 }
      (strL "DEBUG: heartbeat") 51 (by decide)
  · exact (C8_amended.2.1 cfgDBG
      { messages := strL "x\n", current_msg := [], floodwait := 0, message_id := 1, lines := 4, last_update := 50 }
      (strL "INFO: ok") 51 (by decide)).1

/-- C10, counterexample.  The claim says that whenever the response carries
a `retry_after` parameter the floor is set to that value.  A response whose
parameters carry `retry_after = 0` is left untouched by the code (`0` is
falsy), so a pre-existing floor of 30 survives instead of becoming 0. -/
theorem C10_counterexample :
    handle_error { ok := false, error_code := some 429, description := none, result := none, parameters := some { retry_after := some 0, hasOtherKeys := false } }
        { messages := [], current_msg := [], floodwait := 30, message_id := 1, lines := 0, last_update := 0 } =
      { messages := [], current_msg := [], floodwait := 30, message_id := 1, lines := 0, last_update := 0 } ∧
    ¬ (30 : Int) = 0 := by decide

/-- C10, amended.  `handle_error` can modify only the governor floor: every
other state field is returned unchanged for every response; the floor is set
to `retry_after` exactly when the parameters dict is present and carries a
nonzero `retry_after`, and is unchanged in every other case. -/
theorem C10_amended :
    ∀ (resp : TgResponse) (s : HState),
      ((handle_error resp s).messages = s.messages ∧
        (handle_error resp s).current_msg = s.current_msg ∧
        (handle_error resp s).message_id = s.message_id ∧
        (handle_error resp s).lines = s.lines ∧
        (handle_error resp s).last_update = s.last_update) ∧
      (∀ (p : TgParams) (r : Int), resp.parameters = some p →
        p.retry_after = some r → ¬ r = 0 →
        (handle_error resp s).floodwait = r) ∧
      ((∀ (p : TgParams) (r : Int), resp.parameters = some p →
          p.retry_after = some r → r = 0) →
        (handle_error resp s).floodwait = s.floodwait) := by
  intro resp s
  obtain ⟨fw, hfw⟩ := handle_error_frame resp s
  refine ⟨by rw [hfw]; exact ⟨rfl, rfl, rfl, rfl, rfl⟩, ?_, ?_⟩
  · intro p r hp hr hz
    unfold handle_error
    rw [hp]
    dsimp only
    rw [if_pos (by rw [hr]; rfl), hr]
    dsimp only
    rw [if_pos hz]
  · intro hall
    unfold handle_error
    cases hp : resp.parameters with
    | none => rfl
    | some p =>
      dsimp only
      by_cases htr : (p.retry_after.isSome || p.hasOtherKeys) = true
      · rw [if_pos htr]
        cases hr : p.retry_after with
        | none => rfl
        | some r =>
          dsimp only
          rw [if_neg (by simp [hall p r hp hr])]
      · rw [if_neg htr]

/-- C10, witness: a nonzero `retry_after` sets the floor; everything else is
untouched. -/
theorem C10_witness :
    (handle_error { ok := false, error_code := some 429, description := none, result := none, parameters := some { retry_after := some 7, hasOtherKeys := false } } initState).floodwait = 7 ∧
    (handle_error { ok := false, error_code := some 429, description := none, result := none, parameters := some { retry_after := some 7, hasOtherKeys := false } } initState).messages = initState.messages := by
  constructor
  · exact (C10_amended { ok := false, error_code := some 429, description := none, result := none, parameters := some { retry_after := some 7, hasOtherKeys := false } } initState).2.1
      { retry_after := some 7, hasOtherKeys := false } 7 rfl rfl (by decide)
  · exact (C10_amended { ok := false, error_code := some 429, description := none, result := none, parameters := some { retry_after := some 7, hasOtherKeys := false } } initState).1.1

/-- C9, counterexample.  The claim says every error response from any of
the four remote operations is caught at the flush boundary and flush
completes without raising.  A non-401 error response to verify-identity
makes `verify_bot` evaluate `res.get("result").get("username")` on `None`,
so the flush raises `AttributeError` instead of routing the response to the
error handler. -/
theorem C9_counterexample :
    handle_logs defaultCfg env500 { messages := strL "a\n", current_msg := [], floodwait := 0, message_id := 0, lines := 0, last_update := 0 } =
      .error PyErr.attributeError ∧
    env500.verifyResp.ok = false ∧
    ¬ env500.verifyResp.error_code = some 401 := by decide

/-- C9, amended.  Error responses (`ok = false`) to send-text, edit-text,
send-file and the bootstrap send are always caught and routed to the error
handler, so the flush completes without raising; only verify-identity is
unprotected: a flush is exception-free whenever either a message id already
exists or the verify response is one `verify_bot` handles, and provided the
`ok` responses of the two sends are well-formed (carry a `result`). -/
theorem C9_amended :
    ∀ (cfg : Cfg) (env : Env) (s : HState),
      (s.message_id = 0 → ∃ v, verify_bot env.verifyResp = .ok v) →
      (env.initResp.ok = true → env.initResp.result.isSome = true) →
      (env.sendResp.ok = true → env.sendResp.result.isSome = true) →
      ∃ out, handle_logs cfg env s = .ok out := by
  intro cfg env s hv hi hs
  by_cases hlen : s.messages.length > cfg.pending
  · exact ⟨_, handle_logs_file_eq cfg env s hlen⟩
  · rw [handle_logs_text_eq cfg env s hlen]
    obtain ⟨s2, evs0, hb⟩ := @bootstrap_ok env
      { s with messages := s.messages.drop (pyChunk (s.messages.take 4050)).length }
      (fun h => hv h) hi
    rw [hb]
    dsimp only
    exact textCont_ok s2 (pyChunk (s.messages.take 4050)) evs0 hs

/-- C9, witness: with a message id present and every mutating operation
answering with a flood-control error response, the flush still completes
without raising (the errors are routed to `handle_error`, which records the
floor). -/
theorem C9_witness :
    (handle_logs defaultCfg envFlood { messages := strL "x\n", current_msg := [], floodwait := 0, message_id := 1, lines := 0, last_update := 0 }).toBool = true ∧
    envFlood.sendResp.ok = false ∧ envFlood.editResp.ok = false ∧
    handle_logs defaultCfg envFlood { messages := strL "x\n", current_msg := [], floodwait := 0, message_id := 1, lines := 0, last_update := 0 } =
      .ok ({ messages := strL "\n", current_msg := strL "x", floodwait := 3, message_id := 1, lines := 0, last_update := 0 },
           strL "x", [Ev.editText (strL "x")]) := by
  refine ⟨?_, by decide, by decide, by decide⟩
  obtain ⟨out, hout⟩ := C9_amended defaultCfg envFlood
    { messages := strL "x\n", current_msg := [], floodwait := 0, message_id := 1, lines := 0, last_update := 0 }
    (fun h => absurd h (by decide)) (by decide) (by decide)
  rw [hout]
  rfl

/-- C4, counterexample.  The claim says the candidate is split at the last
newline at or before position 4050, with a hard cut only when it contains no
newline.  At `stC4` the candidate (committed newline plus a 4050-character
chunk of a long line) has its only newline at position 0 — inside the
window — yet the code hard-cuts at 4050 and edits a 4050-character left part
instead of splitting at that newline (whose left part would be empty). -/
theorem C4_counterexample :
    handle_logs defaultCfg benignEnv stC4 = .ok
      ({ messages := ['x', '\n'], current_msg := ['x'], floodwait := 0
         message_id := 1, lines := 0, last_update := 0 },
       List.replicate 4050 'x', [Ev.editText teC4, Ev.sendText ['x']]) ∧
    lastNL? ((stC4.current_msg ++ List.replicate 4050 'x').take 4050) = some 0 ∧
    specSplitLeft (stC4.current_msg ++ List.replicate 4050 'x') = [] ∧
    ¬ teC4 = [] := by
  refine ⟨C4flush_eval, ?_, ?_, ?_⟩
  · show lastNL? (((['\n'] : Str) ++ List.replicate 4050 'x').take 4050) = some 0
    rw [C4take]
    exact C4lastNL
  · exact C4specLeft
  · intro h
    have h2 := congrArg List.length h
    unfold teC4 at h2
    simp only [List.length_cons, List.length_replicate, List.length_nil] at h2
    omega

/-- C4, amended.  On a text flush against an existing message whose
candidate overflows 4050, the code splits the candidate at the last newline
in the first 4050 characters unless the left part would be empty (no newline
there, or only one at position 0) — then it hard-cuts at 4050; the left and
right parts concatenate back to the whole candidate, the right part becomes
the committed text of a brand-new message whose fresh identifier replaces
the old one, and the left part is edited exactly when it differs from the
already-committed text. -/
theorem C4_amended :
    ∀ (cfg : Cfg) (env : Env) (s s' : HState) (removed : Str) (evs : List Ev)
      (res : TgResult),
      s.messages.length ≤ cfg.pending →
      ¬ s.message_id = 0 →
      env.sendResp.ok = true →
      env.sendResp.result = some res →
      handle_logs cfg env s = .ok (s', removed, evs) →
      4050 < (s.current_msg ++ removed).length →
      s.current_msg ++ removed =
        textChunkAmended (s.current_msg ++ removed) ++ s'.current_msg ∧
      s'.message_id = res.message_id ∧
      (textChunkAmended (s.current_msg ++ removed) ≠ s.current_msg →
        evs = [Ev.editText (textChunkAmended (s.current_msg ++ removed)),
               Ev.sendText s'.current_msg]) ∧
      (textChunkAmended (s.current_msg ++ removed) = s.current_msg →
        evs = [Ev.sendText s'.current_msg]) := by
  intro cfg env s s' removed evs res hle hmid hok hres h hov
  have hlen : ¬ s.messages.length > cfg.pending := by omega
  rw [handle_logs_text_eq cfg env s hlen] at h
  rw [@bootstrap_skip env { s with messages := s.messages.drop (pyChunk (s.messages.take 4050)).length } hmid] at h
  dsimp only at h
  have hexact : ∀ t : Str, pyChunk (t.take 4050) ++
      t.drop (pyChunk (t.take 4050)).length = t := by
    intro t
    have h1 := pyChunk_take (t.take 4050)
    rw [List.take_take] at h1
    have h2 : (pyChunk (t.take 4050)).length ≤ 4050 := by
      have := pyChunk_length_le (t.take 4050)
      have hl : (t.take 4050).length ≤ 4050 := by
        rw [List.length_take]; omega
      omega
    rw [Nat.min_eq_left h2] at h1
    nth_rewrite 1 [h1]
    rw [List.take_append_drop]
  have hrm := (textCont_out h).1
  subst hrm
  obtain ⟨_, hcm, hmid2, hedit, hskip⟩ := textCont_full hok hres h hov
  rw [← pyChunk_eq_textChunkAmended]
  refine ⟨?_, hmid2, ?_, ?_⟩
  · rw [hcm]
    exact (hexact (s.current_msg ++ pyChunk (s.messages.take 4050))).symm
  · intro hcontra
    rw [hedit hcontra, hcm]
    rfl
  · intro hcontra
    rw [hskip hcontra, hcm]
    rfl

/-- C4, witness: the amended description at the concrete `stC4` flush — the
hard-cut left part and the remainder reassemble the candidate, and both the
edit and the rollover send happen. -/
theorem C4_witness :
    stC4.current_msg ++ List.replicate 4050 'x' =
      textChunkAmended (stC4.current_msg ++ List.replicate 4050 'x') ++ ['x'] ∧
    [Ev.editText teC4, Ev.sendText ['x']] =
      [Ev.editText (textChunkAmended (stC4.current_msg ++ List.replicate 4050 'x')),
       Ev.sendText ['x']] := by
  have hle : stC4.messages.length ≤ defaultCfg.pending := by
    show msgsC4.length ≤ 200000
    unfold msgsC4
    rw [List.length_append, List.length_replicate]
    decide
  have hov : 4050 < (stC4.current_msg ++ List.replicate 4050 'x').length := by
    show 4050 < ((['\n'] : Str) ++ List.replicate 4050 'x').length
    rw [List.length_append, List.length_replicate]
    decide
  have h := C4_amended defaultCfg benignEnv stC4
    { messages := ['x', '\n'], current_msg := ['x'], floodwait := 0
      message_id := 1, lines := 0, last_update := 0 }
    (List.replicate 4050 'x') [Ev.editText teC4, Ev.sendText ['x']]
    { message_id := 1, username := some (strL "bot") }
    hle (by decide) rfl rfl C4flush_eval hov
  have hneq : textChunkAmended (stC4.current_msg ++ List.replicate 4050 'x') ≠
      stC4.current_msg := by
    show textChunkAmended ((['\n'] : Str) ++ List.replicate 4050 'x') ≠ (['\n'] : Str)
    rw [C4amendChunk]
    exact C4ne
  refine ⟨h.1, ?_⟩
  show [Ev.editText teC4, Ev.sendText ['x']] =
    [Ev.editText (textChunkAmended ((['\n'] : Str) ++ List.replicate 4050 'x')),
     Ev.sendText ['x']]
  rw [C4amendChunk]

/-- C3, counterexample.  The claim caps every text handed to send or edit at
4050 characters of log content.  Along a reachable run under the default
configuration — lines `a` and `b`, then a 4046-character line, then an
8000-character line, each followed by its scheduled flush — the fourth flush
composes a 8100-character candidate whose 4050-character window ends at the
newline at position 3, so the remainder sent as a brand-new message carries
8097 characters of log content. -/
theorem C3_counterexample :
    runTrace defaultCfg trC3 = some sysC3h ∧
    tnC3 ∈ sysC3h.sentTexts ∧ 4050 < tnC3.length := by
  have h1 : step defaultCfg initSys (Step.acc (strL "a") 10) = some sysC3a := by decide
  have h2 : step defaultCfg sysC3a (Step.flush benignEnv) = some sysC3b := by decide
  have h3 : step defaultCfg sysC3b (Step.acc (strL "b") 20) = some sysC3c := by decide
  have h4 : step defaultCfg sysC3c (Step.flush benignEnv) = some sysC3d := by decide
  have h5 : step defaultCfg sysC3d (Step.acc g1C3 30) = some sysC3e := by
    rw [step_acc_eq (@emit_passed defaultCfg sysC3d.st g1C3 30 (by decide) (by decide))]
    rfl
  have h6 : step defaultCfg sysC3e (Step.flush benignEnv) = some sysC3f := by
    rw [@step_flush_eq defaultCfg sysC3e benignEnv _ _ _ (by decide) C3flush3]
    rfl
  have h7 : step defaultCfg sysC3f (Step.acc g2C3 40) = some sysC3g := by
    rw [step_acc_eq (@emit_passed defaultCfg sysC3f.st g2C3 40 (by decide) (by decide))]
    rfl
  have h8 : step defaultCfg sysC3g (Step.flush benignEnv) = some sysC3h := by
    rw [@step_flush_eq defaultCfg sysC3g benignEnv _ _ _ (by decide) C3flush4]
    rfl
  refine ⟨?_, ?_, ?_⟩
  · show List.foldlM (step defaultCfg) initSys trC3 = some sysC3h
    unfold trC3
    rw [runSteps h1, runSteps h2, runSteps h3, runSteps h4, runSteps h5,
      runSteps h6, runSteps h7, runSteps h8]
    rfl
  · unfold sysC3h
    simp
  · unfold tnC3 g1C3
    rw [List.length_cons, List.length_append, List.length_replicate,
      List.length_cons, List.length_replicate]
    decide

/-- C3, amended.  Every text handed to the edit-text operation carries at
most 4050 characters; a text handed to the send-text operation is bounded
only by the committed text's length plus 4050 and can exceed 4050. -/
theorem C3_amended :
    ∀ (cfg : Cfg) (env : Env) (s s' : HState) (removed : Str) (evs : List Ev),
      handle_logs cfg env s = .ok (s', removed, evs) →
      (∀ p, Ev.editText p ∈ evs → p.length ≤ 4050) ∧
      (∀ p, Ev.sendText p ∈ evs → p.length ≤ s.current_msg.length + 4050) := by
  intro cfg env s s' removed evs h
  by_cases hlen : s.messages.length > cfg.pending
  · rw [handle_logs_file_eq cfg env s hlen] at h
    injection h with h'
    injection h' with h1 h23
    injection h23 with h2 h3
    rw [← h3]
    constructor
    · intro p hp
      simp at hp
    · intro p hp
      simp at hp
  · rw [handle_logs_text_eq cfg env s hlen] at h
    cases hb : bootstrap env
        { s with messages :=
            s.messages.drop (pyChunk (s.messages.take 4050)).length } with
    | error e => rw [hb] at h; cases h
    | ok pr =>
      obtain ⟨s2, evs0⟩ := pr
      rw [hb] at h
      dsimp only at h
      have hevs0 := bootstrap_evs hb
      obtain ⟨fw, mid, hfm⟩ := bootstrap_frame hb
      have hcur : s2.current_msg = s.current_msg := by rw [hfm]
      have hmsg_le : (pyChunk (s.messages.take 4050)).length ≤ 4050 := by
        have := pyChunk_length_le (s.messages.take 4050)
        have hl : (s.messages.take 4050).length ≤ 4050 := by
          rw [List.length_take]; omega
        omega
      by_cases hov : (s2.current_msg ++ pyChunk (s.messages.take 4050)).length > 4050
      · by_cases hne : pyChunk ((s2.current_msg ++ pyChunk (s.messages.take 4050)).take 4050) = s2.current_msg
        · rw [textCont_roll_skip rfl rfl hov hne] at h
          split at h
          · cases h
          · rename_i s5 hsm
            injection h with h'
            injection h' with hh1 hh23
            injection hh23 with hh2 hh3
            rw [← hh3]
            constructor
            · intro p hp
              rcases hevs0 with he | he <;> rw [he] at hp <;> simp at hp
            · intro p hp
              rcases hevs0 with he | he <;> rw [he] at hp <;> simp at hp <;>
                rw [hp, List.length_drop, List.length_append, ← hcur] <;> omega
        · rw [textCont_roll rfl rfl hov hne] at h
          split at h
          · cases h
          · rename_i s5 hsm
            injection h with h'
            injection h' with hh1 hh23
            injection hh23 with hh2 hh3
            rw [← hh3]
            constructor
            · intro p hp
              have hte_le : (pyChunk ((s2.current_msg ++ pyChunk (s.messages.take 4050)).take 4050)).length ≤ 4050 := by
                have := pyChunk_length_le ((s2.current_msg ++ pyChunk (s.messages.take 4050)).take 4050)
                have hl : ((s2.current_msg ++ pyChunk (s.messages.take 4050)).take 4050).length ≤ 4050 := by
                  rw [List.length_take]; omega
                omega
              rcases hevs0 with he | he <;> rw [he] at hp <;> simp at hp <;>
                rw [hp] <;> exact hte_le
            · intro p hp
              rcases hevs0 with he | he <;> rw [he] at hp <;> simp at hp <;>
                rw [hp, List.length_drop, List.length_append, ← hcur] <;> omega
      · rw [textCont_fit rfl hov] at h
        injection h with h'
        injection h' with hh1 hh23
        injection hh23 with hh2 hh3
        rw [← hh3]
        constructor
        · intro p hp
          rcases hevs0 with he | he <;> rw [he] at hp <;> simp at hp <;>
            rw [hp] <;> omega
        · intro p hp
          rcases hevs0 with he | he <;> rw [he] at hp <;> simp at hp

/-- C3, witness: the amended bound applied at a concrete small flush whose
only text payload is the edited two-character chunk. -/
theorem C3_witness : (strL "hi").length ≤ 4050 :=
  (C3_amended defaultCfg benignEnv
    { messages := strL "hi\n", current_msg := [], floodwait := 0, message_id := 1, lines := 0, last_update := 0 }
    { messages := strL "\n", current_msg := strL "hi", floodwait := 0, message_id := 1, lines := 0, last_update := 0 }
    (strL "hi") [Ev.editText (strL "hi")] (by decide)).1 (strL "hi") (by simp)
